import Mathlib

/-! Oreon Defense, the daemon control plane.

A shallow embedding of the scan-engine client (`internal/scanner/clamav.go`),
the IPC server (`internal/daemon/server.go`) and the event emitter
(`pkg/events/emitter.go`), with the properties of their specification.

Go strings are modelled as lists of Unicode code points (`Str`), that is, as
valid UTF-8 text.  All patterns searched for by the code are ASCII, so positions
of matches in code points and in bytes select the same substrings.
-/

set_option autoImplicit false

namespace Defense

/-! ## Go strings -/

/-- A Go string, as the list of its code points. -/
abbrev Str := List Char

/-- The predicate `unicode.IsSpace`: the Latin-1 spaces and the code points of
the Unicode White_Space property. -/
def isSpace (c : Char) : Bool :=
  c.val == 0x09 || c.val == 0x0A || c.val == 0x0B || c.val == 0x0C || c.val == 0x0D ||
  c.val == 0x20 || c.val == 0x85 || c.val == 0xA0 || c.val == 0x1680 ||
  (0x2000 ≤ c.val && c.val ≤ 0x200A) || c.val == 0x2028 || c.val == 0x2029 ||
  c.val == 0x202F || c.val == 0x205F || c.val == 0x3000

/-- The function `strings.TrimSpace`: leading, then trailing white space removed. -/
def TrimSpace (s : Str) : Str :=
  ((s.dropWhile isSpace).reverse.dropWhile isSpace).reverse

/-- The function `strings.HasPrefix`. -/
def HasPrefix (s pre : Str) : Bool :=
  decide (pre.length ≤ s.length) && s.take pre.length == pre

/-- The function `strings.HasSuffix`:
`len(s) >= len(suffix) && s[len(s)-len(suffix):] == suffix`. -/
def HasSuffix (s suffix : Str) : Bool :=
  decide (suffix.length ≤ s.length) && s.drop (s.length - suffix.length) == suffix

/-- Scan of `s` from position `i` for the first instance of `sub`; `-1` if none. -/
def indexFrom (sub : Str) : Str → Nat → Int
  | [], i => if HasPrefix [] sub then (i : Int) else -1
  | c :: cs, i => if HasPrefix (c :: cs) sub then (i : Int) else indexFrom sub cs (i + 1)

/-- The function `strings.Index`. -/
def Index (s sub : Str) : Int := indexFrom sub s 0

/-- The function `strings.Contains`: `Index(s, substr) >= 0`. -/
def Contains (s sub : Str) : Bool := decide (0 ≤ Index s sub)

/-- Scan of `s` from position `i` for the last instance of `sub`; `-1` if none. -/
def lastIndexFrom (sub : Str) : Str → Nat → Int
  | [], i => if HasPrefix [] sub then (i : Int) else -1
  | c :: cs, i =>
    let r := lastIndexFrom sub cs (i + 1)
    if r ≠ -1 then r else if HasPrefix (c :: cs) sub then (i : Int) else -1

/-- The function `strings.LastIndex`. -/
def LastIndex (s sub : Str) : Int := lastIndexFrom sub s 0

/-- The slice expression `s[lo:hi]`; `none` is the run-time panic
"slice bounds out of range". -/
def slice (s : Str) (lo hi : Int) : Option Str :=
  if 0 ≤ lo ∧ lo ≤ hi ∧ hi ≤ (s.length : Int) then
    some ((s.drop lo.toNat).take (hi.toNat - lo.toNat))
  else none

/-- The method `bufio.Reader.ReadString(delim)` on a peer that sends `stream` and
then closes or goes silent (a read past it fails with `readErr`): the text through
the first delimiter, or everything received together with the read error. -/
def ReadString (stream : Str) (readErr : Str) (delim : Char) : Str × Option Str :=
  if delim ∈ stream then
    (stream.takeWhile (fun c => c != delim) ++ [delim], none)
  else (stream, some readErr)

/-! ## Scan-engine client (`internal/scanner/clamav.go`) -/

/-- A reading of the clock (`time.Time`), by its calendar fields. -/
structure Time where
  year : Nat
  month : Nat
  day : Nat
  hour : Nat
  minute : Nat
  second : Nat
  nsec : Nat
deriving DecidableEq, Repr

/-- The struct `ScanResult`; `Error` is `none` for a nil error, else its message. -/
structure ScanResult where
  Path : Str
  Clean : Bool
  Threat : Str
  Error : Option Str
  ScannedAt : Time
deriving DecidableEq, Repr

/-- What the scan daemon does during one call of the client. -/
inductive Clamd where
  /-- The call `net.DialTimeout` fails with this error. -/
  | dialFails (err : Str)
  /-- The connection is made and the write of the command fails. -/
  | writeFails (err : Str)
  /-- The command is written and the daemon sends these bytes; a read past them
  fails with `readErr` (end of stream, or the deadline). -/
  | sends (stream : Str) (readErr : Str)
deriving DecidableEq, Repr

/-- The classification of the response line in `ScanFile` (lines 102-118);
`none` is a run-time panic. -/
def classify (result : ScanResult) (response0 : Str) : Option ScanResult :=
  let response := TrimSpace response0
  if HasSuffix response " OK".toList then
    some { result with Clean := true }
  else if HasSuffix response " FOUND".toList then
    let colonIdx := LastIndex response ": ".toList
    if colonIdx ≠ -1 then
      match slice response (colonIdx + 2) ((response.length : Int) - 6) with
      | none => none
      | some threat => some { result with Threat := threat, Clean := false }
    else
      some { result with Clean := false }
  else if Contains response "ERROR".toList then
    some { result with Error := some ("clamd error: ".toList ++ response) }
  else
    some result

/-- The method `ClamAV.ScanFile`; `now` is the reading of `time.Now()`, `none` is
a run-time panic. -/
def ScanFile (peer : Clamd) (now : Time) (path : Str) : Option ScanResult :=
  let result : ScanResult :=
    { Path := path, Clean := false, Threat := [], Error := none, ScannedAt := now }
  match peer with
  | .dialFails err =>
    some { result with Error := some ("connect to clamd: ".toList ++ err) }
  | .writeFails err =>
    some { result with Error := some ("send SCAN command: ".toList ++ err) }
  | .sends stream readErr =>
    match ReadString stream readErr '\n' with
    | (_, some err) =>
      some { result with Error := some ("read scan response: ".toList ++ err) }
    | (response, none) => classify result response

/-- The method `ClamAV.Ping`: `none` for a nil error, else the error message. -/
def Ping (peer : Clamd) : Option Str :=
  match peer with
  | .dialFails err => some ("connect to clamd: ".toList ++ err)
  | .writeFails err => some ("send PING: ".toList ++ err)
  | .sends stream readErr =>
    match ReadString stream readErr '\n' with
    | (_, some err) => some ("read response: ".toList ++ err)
    | (response, none) =>
      if TrimSpace response ≠ "PONG".toList then
        some ("unexpected response: ".toList ++ response)
      else none

/-- The method `ClamAV.IsAvailable`: the socket path exists and `Ping` succeeds. -/
def IsAvailable (socketExists : Bool) (peer : Clamd) : Bool :=
  if !socketExists then false else (Ping peer).isNone

/-! ## Event pipeline (`pkg/events`) -/

/-- A `float64`: not-a-number, the infinities, or a finite value, given by the
rational it denotes.  The code only assigns and compares such values. -/
inductive F64 where
  | nan
  | negInf
  | posInf
  | fin (q : ℚ)
deriving DecidableEq

/-- The comparison `a < b` of two `float64`: false when either is not a number. -/
def F64.lt : F64 → F64 → Bool
  | .fin a, .fin b => decide (a < b)
  | .negInf, .fin _ => true
  | .negInf, .posInf => true
  | .fin _, .posInf => true
  | _, _ => false

/-- The comparison `a <= b` of two `float64`: false when either is not a number. -/
def F64.le : F64 → F64 → Bool
  | .fin a, .fin b => decide (a ≤ b)
  | .negInf, .fin _ => true
  | .negInf, .posInf => true
  | .negInf, .negInf => true
  | .fin _, .posInf => true
  | .posInf, .posInf => true
  | _, _ => false

/-- A value of the map `Fields` of an event. -/
inductive FieldValue where
  | str (s : Str)
  | int (n : Int)
  | bool (b : Bool)
deriving DecidableEq, Repr

/-- The struct `Event` (`event.go`); `Duration` is in nanoseconds. -/
structure Event where
  EventType : Str
  OperationID : Str
  Component : Str
  StartedAt : Time
  Duration : Int
  DurationMs : Int
  Success : Bool
  Error : Str
  Fields : List (Str × FieldValue)
deriving DecidableEq, Repr

/-- The struct `Emitter`, without its logger. -/
structure Emitter where
  sampleRate : F64
  slowThresh : Int
deriving DecidableEq

/-- The option `WithSlowThreshold(d)`, applied to an emitter. -/
def WithSlowThreshold (d : Int) (e : Emitter) : Emitter :=
  { e with slowThresh := d }

/-- The method `Emitter.shouldEmit`; `r` is the value drawn by `rand.Float64()`. -/
def shouldEmit (e : Emitter) (evt : Event) (r : F64) : Bool :=
  if !evt.Success then true
  else if decide (evt.Duration ≥ e.slowThresh) then true
  else if F64.le (.fin 1) e.sampleRate then true
  else if F64.le e.sampleRate (.fin 0) then false
  else F64.lt r e.sampleRate

/-- The method `Emitter.Emit`: the event handed to the logger, if any. -/
def Emit (e : Emitter) (evt : Event) (r : F64) : Option Event :=
  if !shouldEmit e evt r then none else some evt

/-- Modelled from the spec: the event builder of `pkg/events` (`Start`, `Set`,
`SetError`), whose source file is not among the sources.  "Builders accumulate
fields through a fluent chain and finalize into one immutable Event at end of
operation"; the identification and timing that `Start` and `End` add are left out. -/
structure Builder where
  EventType : Str
  Component : Str
  Success : Bool
  Error : Str
  Fields : List (Str × FieldValue)
deriving DecidableEq, Repr

/-- Modelled from the spec: `Start(type, component)`, a builder of a successful
event with no field. -/
def Start (type component : Str) : Builder :=
  { EventType := type, Component := component, Success := true, Error := [], Fields := [] }

/-- Modelled from the spec: `Builder.Set(key, value)`, an assignment in the map
of fields. -/
def Builder.Set (b : Builder) (key : Str) (value : FieldValue) : Builder :=
  { b with Fields := b.Fields.filter (fun kv => kv.1 != key) ++ [(key, value)] }

/-- Modelled from the spec: `Builder.SetError(err)`, which marks the event
unsuccessful with the message of `err`. -/
def Builder.SetError (b : Builder) (err : Str) : Builder :=
  { b with Success := false, Error := err }

/-- The value of a field of a builder. -/
def Builder.field (b : Builder) (key : Str) : Option FieldValue :=
  (b.Fields.find? (fun kv => kv.1 == key)).map (fun kv => kv.2)

def EventTypeScan : Str := "scan".toList
def EventTypeIPCRequest : Str := "ipc_request".toList
def EventTypeThreat : Str := "threat_detected".toList

def FieldScanType : Str := "scan_type".toList
def FieldJobID : Str := "job_id".toList
def FieldPath : Str := "path".toList
def FieldFilesScanned : Str := "files_scanned".toList
def FieldThreatsFound : Str := "threats_found".toList
def FieldFileSizeBytes : Str := "file_size_bytes".toList
def FieldCommand : Str := "command".toList
def FieldRequestID : Str := "request_id".toList
def FieldClientVersion : Str := "client_version".toList
def FieldResponseSize : Str := "response_size_bytes".toList
def FieldThreatName : Str := "threat_name".toList
def FieldAction : Str := "action".toList

/-- The constructor `StartScan(scanType, jobID)` (`types.go`). -/
def StartScan (scanType jobID : Str) : Builder :=
  ((Start EventTypeScan "scanner".toList).Set FieldScanType (.str scanType)).Set
    FieldJobID (.str jobID)

/-- The method `ScanBuilder.FilesScanned(count)`. -/
def Builder.FilesScanned (b : Builder) (count : Int) : Builder :=
  b.Set FieldFilesScanned (.int count)

/-- The method `ScanBuilder.ThreatsFound(count)`. -/
def Builder.ThreatsFound (b : Builder) (count : Int) : Builder :=
  b.Set FieldThreatsFound (.int count)

/-- The constructor `StartIPCRequest(command, requestID)`. -/
def StartIPCRequest (command requestID : Str) : Builder :=
  ((Start EventTypeIPCRequest "ipc".toList).Set FieldCommand (.str command)).Set
    FieldRequestID (.str requestID)

/-- The method `IPCRequestBuilder.ClientVersion(version)`. -/
def Builder.ClientVersion (b : Builder) (version : Int) : Builder :=
  b.Set FieldClientVersion (.int version)

/-- The method `IPCRequestBuilder.ResponseSize(bytes)`. -/
def Builder.ResponseSize (b : Builder) (bytes : Int) : Builder :=
  b.Set FieldResponseSize (.int bytes)

/-- The constructor `StartThreat(path, threatName)`. -/
def StartThreat (path threatName : Str) : Builder :=
  ((Start EventTypeThreat "scanner".toList).Set FieldPath (.str path)).Set
    FieldThreatName (.str threatName)

/-- The method `ThreatBuilder.Action(action)`. -/
def Builder.Action (b : Builder) (action : Str) : Builder :=
  b.Set FieldAction (.str action)

/-- The method `ThreatBuilder.FileSize(bytes)`. -/
def Builder.FileSize (b : Builder) (bytes : Int) : Builder :=
  b.Set FieldFileSizeBytes (.int bytes)

/-! ## Protocol (`pkg/ipc`) and daemon state

The packages `pkg/ipc`, `pkg/config` and the files of `internal/daemon` that
declare `Daemon` and its state machine are not among the sources; what the
server uses of them is modelled from the specification. -/

/-- Modelled from the spec: the constant `ipc.CmdPing`, the command name `ping`. -/
def CmdPing : Str := "ping".toList
/-- Modelled from the spec: the constant `ipc.CmdStatus`. -/
def CmdStatus : Str := "status".toList
/-- Modelled from the spec: the constant `ipc.CmdFirewallEnable`. -/
def CmdFirewallEnable : Str := "firewall_enable".toList
/-- Modelled from the spec: the constant `ipc.CmdFirewallDisable`. -/
def CmdFirewallDisable : Str := "firewall_disable".toList
/-- Modelled from the spec: the constant `ipc.CmdFirewallStatus`. -/
def CmdFirewallStatus : Str := "firewall_status".toList
/-- Modelled from the spec: the constant `ipc.CmdScanQuick`. -/
def CmdScanQuick : Str := "scan_quick".toList
/-- Modelled from the spec: the constant `ipc.CmdScanFull`. -/
def CmdScanFull : Str := "scan_full".toList
/-- Modelled from the spec: the constant `ipc.CmdPause`. -/
def CmdPause : Str := "pause".toList
/-- Modelled from the spec: the constant `ipc.CmdResume`. -/
def CmdResume : Str := "resume".toList
/-- Modelled from the spec: the constant `ipc.CmdSubscribe`. -/
def CmdSubscribe : Str := "subscribe".toList

/-- The commands that the server recognizes. -/
def recognized : List Str :=
  [CmdPing, CmdStatus, CmdFirewallEnable, CmdFirewallDisable, CmdFirewallStatus,
   CmdScanQuick, CmdScanFull, CmdPause, CmdResume, CmdSubscribe]

/-- Modelled from the spec: the struct `ipc.Request`, `{id, command, version}`. -/
structure Request where
  ID : Str
  Command : Str
  Version : Int
deriving DecidableEq, Repr

/-- The payload of a response before it is marshalled to JSON: a string, or one of
the structs `ipc.StatusResponse`, `ipc.FirewallStatusResponse`, `ipc.ScanResponse`,
`ipc.StateChangeEvent` (modelled from the spec, by their fields). -/
inductive Data where
  | text (s : Str)
  | status (State : Str) (FirewallEnabled : Bool) (LastScan RulesUpdated : Time)
  | firewallStatus (Enabled : Bool)
  | scan (JobID : Str)
  | stateChange (OldState NewState : Str)
deriving DecidableEq, Repr

/-- Modelled from the spec: the struct `ipc.Response`, `{id, success, data, error}`;
`Data` is `none` when no data is set. -/
structure Response where
  ID : Str
  Success : Bool
  Data : Option Data
  Error : Str
deriving DecidableEq, Repr

/-- Modelled from the spec: the protection states, under the names the server
uses for them. -/
inductive State where
  | StateProtected
  | StateScanning
  | StatePaused
  | StateAlert
  | StateWarning
deriving DecidableEq, Repr

open State

/-- Modelled from the spec: the method `State.String`, the lower-case name of the
state (`protected`, `paused`, ...). -/
def State.String : State → Str
  | StateProtected => "protected".toList
  | StateScanning => "scanning".toList
  | StatePaused => "paused".toList
  | StateAlert => "alert".toList
  | StateWarning => "warning".toList

/-- A client connection (`net.Conn`), by its identity. -/
abbrev Conn := Nat

/-- Modelled from the spec: what the server reads and writes of the struct
`Daemon`: the current protection state, the firewall flag, the times of the last
scan and of the last rules update, and the configured quick-scan paths. -/
structure Daemon where
  state : State
  firewallEnabled : Bool
  lastScan : Time
  rulesUpdated : Time
  quickScanPaths : List Str
deriving DecidableEq, Repr

/-- The struct `Server`: the daemon and the keys of the map `subscribers`, in the
order in which a `range` over the map yields them. -/
structure Server where
  daemon : Daemon
  subscribers : List Conn
deriving DecidableEq, Repr

/-- What a handler does besides changing the server: the writes attempted on
subscribers' connections, the builders whose event is handed to the emitter, and
the scan runs started with `go s.runScan(scanType)`. -/
structure Effects where
  pushes : List (Conn × Response)
  events : List Builder
  launched : List Str
deriving DecidableEq, Repr

/-- The decimal digits of `n`, padded with zeros to at least `width` digits: how
`Format` writes a field of the layout (`appendInt`). -/
def zeroPad (n width : Nat) : Str :=
  List.replicate (width - (Nat.toDigits 10 n).length) '0' ++ Nat.toDigits 10 n

/-- The call `t.Format("20060102-150405")`. -/
def Time.Format (t : Time) : Str :=
  zeroPad t.year 4 ++ zeroPad t.month 2 ++ zeroPad t.day 2 ++ ['-'] ++ zeroPad t.hour 2 ++
    zeroPad t.minute 2 ++ zeroPad t.second 2

/-! ## IPC server (`internal/daemon/server.go`) -/

/-- The method `Server.subscribe`: `s.subscribers[conn] = true`. -/
def subscribe (s : Server) (conn : Conn) : Server :=
  if conn ∈ s.subscribers then s else { s with subscribers := s.subscribers ++ [conn] }

/-- The method `Server.unsubscribe`: `delete(s.subscribers, conn)`. -/
def unsubscribe (s : Server) (conn : Conn) : Server :=
  { s with subscribers := s.subscribers.filter (fun c => c != conn) }

/-- The function `makeResponse`; none of the payloads the server passes makes
`json.Marshal` fail. -/
def makeResponse (id : Str) (data : Option Data) : Response :=
  { ID := id, Success := true, Data := data, Error := [] }

/-- The method `Server.broadcastStateChange`: one write per subscriber of the
snapshot, a failed write unsubscribes the connection.  Returns the server and the
writes attempted. -/
def broadcastStateChange (s : Server) (writeOk : Conn → Bool) (oldState newState : Str) :
    Server × List (Conn × Response) :=
  let resp := makeResponse "event".toList (some (.stateChange oldState newState))
  let subscribers := s.subscribers
  subscribers.foldl
    (fun acc conn =>
      if writeOk conn then (acc.1, acc.2 ++ [(conn, resp)])
      else (unsubscribe acc.1 conn, acc.2 ++ [(conn, resp)]))
    (s, [])

/-- Modelled from the spec: `StateMachine.SetState(new)` "commits new value, then
invokes every registered observer with (old, new)"; the one observer is the
closure that `NewServer` registers, a call of `broadcastStateChange`. -/
def SetState (s : Server) (writeOk : Conn → Bool) (new : State) :
    Server × List (Conn × Response) :=
  let old := s.daemon.state
  broadcastStateChange { s with daemon := { s.daemon with state := new } } writeOk
    old.String new.String

/-- Modelled from the spec: `Daemon.SetFirewallEnabled`, the setter of the flag. -/
def SetFirewallEnabled (s : Server) (enabled : Bool) : Server :=
  { s with daemon := { s.daemon with firewallEnabled := enabled } }

/-- Modelled from the spec: `Daemon.SetLastScan`, the setter of the last-scan time. -/
def SetLastScan (s : Server) (t : Time) : Server :=
  { s with daemon := { s.daemon with lastScan := t } }

/-! ## Scan orchestration (`Server.runScan`, `Server.scanDirectory`) -/

/-- The value of an `int` after an increment or an addition: 64 bits, two's
complement. -/
def wrapInt64 (x : Int) : Int := (x + 2 ^ 63) % 2 ^ 64 - 2 ^ 63

/-- A node that `filepath.Walk` hands to its callback. -/
inductive Node where
  /-- A node that could not be read (`err != nil`). -/
  | inaccessible (path : Str)
  /-- A directory. -/
  | dir (path : Str)
  /-- Any other file, with its size, what the scan daemon does while it is scanned
  and the reading of the clock at the start of its scan. -/
  | file (path : Str) (size : Int) (peer : Clamd) (now : Time)
deriving DecidableEq, Repr

/-- The state of a traversal: the two counters, the threat events emitted, and the
paths handed to `ScanFile`. -/
structure ScanAcc where
  filesScanned : Int
  threatsFound : Int
  events : List Builder
  scanCalls : List Str
deriving DecidableEq, Repr

/-- The callback that `scanDirectory` passes to `filepath.Walk`; `none` is a
run-time panic in `ScanFile`. -/
def visit (acc : ScanAcc) : Node → Option ScanAcc
  | .inaccessible _ => some acc
  | .dir _ => some acc
  | .file path size peer now =>
    match ScanFile peer now path with
    | none => none
    | some result =>
      let acc := { acc with scanCalls := acc.scanCalls ++ [path] }
      if result.Error ≠ none then some acc
      else
        let acc := { acc with filesScanned := wrapInt64 (acc.filesScanned + 1) }
        if !result.Clean then
          let threatEvt := ((StartThreat path result.Threat).Action "detected".toList).FileSize size
          some { acc with threatsFound := wrapInt64 (acc.threatsFound + 1),
                          events := acc.events ++ [threatEvt] }
        else some acc

/-- The method `Server.scanDirectory`, on the nodes the walk of the base path
visits. -/
def scanDirectory (nodes : List Node) (acc : ScanAcc) : Option ScanAcc :=
  nodes.foldlM visit acc

/-- What a scan run reads of its environment: the clock at its start and at its
end, whether the socket of the scan daemon exists, what the daemon does on the
liveness probe, the nodes under each base path, and whether a write on a
connection succeeds. -/
structure ScanEnv where
  start : Time
  socketExists : Bool
  probe : Clamd
  walk : Str → List Node
  finish : Time
  writeOk : Conn → Bool

/-- The outcome of a scan run: the server, the writes on subscribers' connections,
the events handed to the emitter (the job-level event last), the final counters and
the paths handed to `ScanFile`. -/
structure RunResult where
  server : Server
  pushes : List (Conn × Response)
  events : List Builder
  filesScanned : Int
  threatsFound : Int
  scanCalls : List Str
deriving DecidableEq, Repr

/-- The base paths of a scan run (lines 292-298 of `runScan`): the configured paths
for a quick scan, a fixed list otherwise. -/
def scanPaths (s : Server) (scanType : Str) : List Str :=
  if scanType = "quick".toList then s.daemon.quickScanPaths
  else ["/home".toList, "/tmp".toList, "/var/tmp".toList]

/-- Whether the scan of a node returns (does not panic). -/
def Node.scans : Node → Bool
  | .file path _ peer now => (ScanFile peer now path).isSome
  | _ => true

/-- The method `Server.runScan`; `none` is a run-time panic. -/
def runScan (env : ScanEnv) (s : Server) (scanType : Str) : Option RunResult :=
  let jobID := scanType ++ "-".toList ++ env.start.Format
  let evt := StartScan scanType jobID
  if !IsAvailable env.socketExists env.probe then
    let evt := evt.SetError "ClamAV not available".toList
    let r := SetState s env.writeOk StateWarning
    some { server := r.1, pushes := r.2, events := [evt], filesScanned := 0,
           threatsFound := 0, scanCalls := [] }
  else
    let paths := scanPaths s scanType
    match paths.foldlM (fun acc basePath => scanDirectory (env.walk basePath) acc)
        { filesScanned := 0, threatsFound := 0, events := [], scanCalls := [] } with
    | none => none
    | some acc =>
      let evt := (evt.FilesScanned acc.filesScanned).ThreatsFound acc.threatsFound
      let s := SetLastScan s env.finish
      let r :=
        if acc.threatsFound > 0 then SetState s env.writeOk StateAlert
        else SetState s env.writeOk StateProtected
      some { server := r.1, pushes := r.2, events := acc.events ++ [evt],
             filesScanned := acc.filesScanned, threatsFound := acc.threatsFound,
             scanCalls := acc.scanCalls }

/-- The results of the scans of the files among `nodes`, in the order of the visit
(`none` for a scan that panics): what `ScanFile` returns to the callback. -/
def scanResults : List Node → List (Option ScanResult)
  | [] => []
  | .file path _ peer now :: rest => ScanFile peer now path :: scanResults rest
  | _ :: rest => scanResults rest

/-- The paths of the files among `nodes`, in the order of the visit. -/
def filePaths : List Node → List Str
  | [] => []
  | .file path _ _ _ :: rest => path :: filePaths rest
  | _ :: rest => filePaths rest

/-- The nodes that a scan run visits: those under each base path, in order. -/
def visited (walk : Str → List Node) : List Str → List Node
  | [] => []
  | basePath :: rest => walk basePath ++ visited walk rest

/-- A result with no error. -/
def ScanResult.ok (r : ScanResult) : Bool := r.Error.isNone

/-- A result with no error and `Clean = false`. -/
def ScanResult.threat (r : ScanResult) : Bool := r.Error.isNone && !r.Clean

/-- How far the scan run that a handler launches with `go s.runScan(scanType)` has
got when the handler returns: the run executes concurrently with the rest of the
handler, and nothing orders its writes to the daemon after the handler's return. -/
inductive Early where
  /-- The run has made none of its writes to the daemon. -/
  | pending
  /-- The run, in this environment, has finished its traversal and recorded the time
  of the scan (`SetLastScan`), and has not yet made its final transition. -/
  | recorded (env : ScanEnv)
  /-- The run, in this environment, has returned. -/
  | finished (env : ScanEnv)

/-- The server as the handler's return finds it, `s` being the server when the run
of type `scanType` was launched.  A run that panics takes the process down, so that
the handler does not return; the server is then left as the handler set it. -/
def earlyServer (s : Server) (scanType : Str) : Early → Server
  | .pending => s
  | .recorded env =>
    match runScan env s scanType with
    | some _ => if IsAvailable env.socketExists env.probe then SetLastScan s env.finish else s
    | none => s
  | .finished env =>
    match runScan env s scanType with
    | some r => r.server
    | none => s

/-- What a handler reads of its environment: the clock, whether a write on a
connection succeeds, the length of the JSON encoding of a payload, and how far a scan
run that it launches has got when it returns. -/
structure Env where
  now : Time
  writeOk : Conn → Bool
  jsonLen : Data → Int
  early : Early

/-- The body of `Server.handleRequest` between the version check and `return resp`:
the server when the handler returns, the response, the pushes and the scan runs
launched.  After `go s.runScan(scanType)` the run executes concurrently: the server
that the return finds is the handler's own, or one on which the run has already
written (`earlyServer`). -/
def handleCommand (env : Env) (s : Server) (req : Request) :
    Server × Response × List (Conn × Response) × List Str :=
  if req.Command = CmdPing then
    (s, makeResponse req.ID (some (.text "pong".toList)), [], [])
  else if req.Command = CmdStatus then
    (s, makeResponse req.ID (some (.status s.daemon.state.String s.daemon.firewallEnabled
      s.daemon.lastScan s.daemon.rulesUpdated)), [], [])
  else if req.Command = CmdFirewallEnable then
    (SetFirewallEnabled s true, makeResponse req.ID (some (.text "firewall enabled".toList)),
      [], [])
  else if req.Command = CmdFirewallDisable then
    (SetFirewallEnabled s false, makeResponse req.ID (some (.text "firewall disabled".toList)),
      [], [])
  else if req.Command = CmdFirewallStatus then
    (s, makeResponse req.ID (some (.firewallStatus s.daemon.firewallEnabled)), [], [])
  else if req.Command = CmdScanQuick then
    let r := SetState s env.writeOk StateScanning
    (earlyServer r.1 "quick".toList env.early,
      makeResponse req.ID (some (.scan ("quick-".toList ++ env.now.Format))), r.2,
      ["quick".toList])
  else if req.Command = CmdScanFull then
    let r := SetState s env.writeOk StateScanning
    (earlyServer r.1 "full".toList env.early,
      makeResponse req.ID (some (.scan ("full-".toList ++ env.now.Format))), r.2,
      ["full".toList])
  else if req.Command = CmdPause then
    let r := SetState s env.writeOk StatePaused
    (r.1, makeResponse req.ID (some (.text "protection paused".toList)), r.2, [])
  else if req.Command = CmdResume then
    let r := SetState s env.writeOk StateProtected
    (r.1, makeResponse req.ID (some (.text "protection resumed".toList)), r.2, [])
  else
    (s, { ID := req.ID, Success := false, Data := none,
          Error := "unknown command: ".toList ++ req.Command }, [], [])

/-- Decimal representation of an integer (the verb `%d`). -/
def fmtInt (n : Int) : Str := (toString n).toList

/-- The method `Server.handleRequest`; `ProtocolVersion` is the constant
`ipc.ProtocolVersion`. -/
def handleRequest (ProtocolVersion : Int) (env : Env) (s : Server) (req : Request) :
    Server × Response × Effects :=
  let evt := (StartIPCRequest req.Command req.ID).ClientVersion req.Version
  let r : Server × Response × List (Conn × Response) × List Str :=
    if req.Version ≠ 0 ∧ req.Version ≠ ProtocolVersion then
      (s, { ID := req.ID, Success := false, Data := none,
            Error := "protocol version mismatch: client=".toList ++ fmtInt req.Version ++
              ", server=".toList ++ fmtInt ProtocolVersion }, [], [])
    else handleCommand env s req
  let resp := r.2.1
  let evt := if !resp.Success then evt.SetError resp.Error else evt
  let evt := evt.ResponseSize (match resp.Data with | none => 0 | some d => env.jsonLen d)
  (r.1, resp, { pushes := r.2.2.1, events := [evt], launched := r.2.2.2 })

/-- The body of the loop of `Server.handleConnection` for a line that decodes to
`req` (lines 165-176): the server, the response to write, and the effects. -/
def handleConnectionBody (ProtocolVersion : Int) (env : Env) (s : Server) (conn : Conn)
    (req : Request) : Server × Response × Effects :=
  if req.Command = CmdSubscribe then
    (subscribe s conn, makeResponse req.ID (some (.text "subscribed".toList)),
      { pushes := [], events := [], launched := [] })
  else handleRequest ProtocolVersion env s req

/-- One line received on a connection: the request it decodes to (`none` when it is
not valid JSON), the environment while it is handled, and whether the write of the
response succeeds. -/
structure Incoming where
  line : Option Request
  env : Env
  written : Bool

/-- The method `Server.handleConnection` on a connection that delivers the lines
`input` and then fails to read: the server after the deferred `unsubscribe`, and
the responses written. -/
def handleConnection (ProtocolVersion : Int) (conn : Conn) :
    Server → List Incoming → Server × List Response
  | s, [] => (unsubscribe s conn, [])
  | s, i :: rest =>
    match i.line with
    | none =>
      if i.written then
        let r := handleConnection ProtocolVersion conn s rest
        (r.1, { ID := [], Success := false, Data := none, Error := "invalid JSON".toList }
          :: r.2)
      else (unsubscribe s conn, [])
    | some req =>
      let b := handleConnectionBody ProtocolVersion i.env s conn req
      if i.written then
        let r := handleConnection ProtocolVersion conn b.1 rest
        (r.1, b.2.1 :: r.2)
      else (unsubscribe b.1 conn, [])

/-! ## Sample values -/

/-- A daemon in the state `Protected`, with one quick-scan path and no subscriber. -/
def sampleServer : Server :=
  { daemon := { state := StateProtected, firewallEnabled := false,
                lastScan := ⟨2023, 12, 31, 8, 0, 0, 0⟩, rulesUpdated := ⟨2023, 12, 30, 8, 0, 0, 0⟩,
                quickScanPaths := ["/home/u".toList] },
    subscribers := [] }

/-- A handler's environment: the clock reads 2024-01-01 23:59:59.9. -/
def sampleEnv : Env :=
  { now := ⟨2024, 1, 1, 23, 59, 59, 900000000⟩, writeOk := fun _ => true, jsonLen := fun _ => 0,
    early := .pending }

/-- A scan daemon that answers the liveness probe. -/
def pongPeer : Clamd := .sends "PONG\n".toList "EOF".toList

/-- A scan run's environment: the run starts at 2024-01-02 00:00:00.1, the scan
daemon is available, and the quick-scan path holds one directory and two files, the
second of which is reported infected. -/
def sampleScanEnv : ScanEnv :=
  { start := ⟨2024, 1, 2, 0, 0, 0, 100000000⟩,
    socketExists := true,
    probe := pongPeer,
    walk := fun basePath =>
      if basePath = "/home/u".toList then
        [ .dir "/home/u".toList,
          .file "/home/u/a".toList 10 (.sends "/home/u/a: OK\n".toList "EOF".toList)
            ⟨2024, 1, 2, 0, 0, 1, 0⟩,
          .file "/home/u/b".toList 68
            (.sends "/home/u/b: Eicar-Test-Signature FOUND\n".toList "EOF".toList)
            ⟨2024, 1, 2, 0, 0, 2, 0⟩ ]
      else [],
    finish := ⟨2024, 1, 2, 0, 0, 3, 0⟩,
    writeOk := fun _ => true }

/-- The nodes of one directory: a subdirectory, a node that cannot be read, and four
files whose scans are answered `OK`, `FOUND`, with an `ERROR` line and with an empty
line. -/
def sampleNodes : List Node :=
  [ .dir "/srv".toList,
    .inaccessible "/srv/locked".toList,
    .file "/srv/a".toList 10 (.sends "/srv/a: OK\n".toList "EOF".toList)
      ⟨2024, 1, 2, 0, 0, 1, 0⟩,
    .file "/srv/b".toList 68 (.sends "/srv/b: Eicar-Test-Signature FOUND\n".toList "EOF".toList)
      ⟨2024, 1, 2, 0, 0, 2, 0⟩,
    .file "/srv/c".toList 5 (.sends "/srv/c: lstat() failed. ERROR\n".toList "EOF".toList)
      ⟨2024, 1, 2, 0, 0, 3, 0⟩,
    .file "/srv/d".toList 7 (.sends "\n".toList "EOF".toList) ⟨2024, 1, 2, 0, 0, 4, 0⟩ ]

/-- The results of the scans of the files of `sampleNodes`. -/
def sampleResults : List ScanResult :=
  [ { Path := "/srv/a".toList, Clean := true, Threat := [], Error := none,
      ScannedAt := ⟨2024, 1, 2, 0, 0, 1, 0⟩ },
    { Path := "/srv/b".toList, Clean := false, Threat := "Eicar-Test-Signature".toList,
      Error := none, ScannedAt := ⟨2024, 1, 2, 0, 0, 2, 0⟩ },
    { Path := "/srv/c".toList, Clean := false, Threat := [],
      Error := some "clamd error: /srv/c: lstat() failed. ERROR".toList,
      ScannedAt := ⟨2024, 1, 2, 0, 0, 3, 0⟩ },
    { Path := "/srv/d".toList, Clean := false, Threat := [], Error := none,
      ScannedAt := ⟨2024, 1, 2, 0, 0, 4, 0⟩ } ]

/-- A scan run's environment in which the only file under the quick-scan path is
answered with an empty line. -/
def sampleBlankEnv : ScanEnv :=
  { start := ⟨2024, 1, 2, 0, 0, 0, 0⟩,
    socketExists := true,
    probe := pongPeer,
    walk := fun basePath =>
      if basePath = "/home/u".toList then
        [ .file "/home/u/d".toList 7 (.sends "\n".toList "EOF".toList)
            ⟨2024, 1, 2, 0, 0, 4, 0⟩ ]
      else [],
    finish := ⟨2024, 1, 2, 0, 0, 5, 0⟩,
    writeOk := fun _ => true }

/-- A scan run's environment in which the scan daemon is available and answers the
scan of the only file under the quick-scan path with `/home/u/x: FOUND`. -/
def samplePanicEnv : ScanEnv :=
  { start := ⟨2024, 1, 2, 0, 0, 0, 0⟩,
    socketExists := true,
    probe := pongPeer,
    walk := fun basePath =>
      if basePath = "/home/u".toList then
        [ .file "/home/u/x".toList 7 (.sends "/home/u/x: FOUND\n".toList "EOF".toList)
            ⟨2024, 1, 2, 0, 0, 1, 0⟩ ]
      else [],
    finish := ⟨2024, 1, 2, 0, 0, 5, 0⟩,
    writeOk := fun _ => true }

/-- A scan run's environment in which the only file under the quick-scan path is
clean. -/
def sampleCleanEnv : ScanEnv :=
  { start := ⟨2024, 1, 2, 0, 0, 0, 0⟩,
    socketExists := true,
    probe := pongPeer,
    walk := fun basePath =>
      if basePath = "/home/u".toList then
        [ .file "/home/u/x".toList 7 (.sends "/home/u/x: OK\n".toList "EOF".toList)
            ⟨2024, 1, 2, 0, 0, 1, 0⟩ ]
      else [],
    finish := ⟨2024, 1, 2, 0, 0, 5, 0⟩,
    writeOk := fun _ => true }

theorem hasPrefix_iff (s pre : Str) : HasPrefix s pre = true ↔ pre <+: s := by
  unfold HasPrefix
  rw [Bool.and_eq_true, decide_eq_true_iff, beq_iff_eq, List.prefix_iff_eq_take]
  constructor
  · rintro ⟨_, h⟩; exact h.symm
  · intro h
    refine ⟨?_, h.symm⟩
    have := congrArg List.length h
    rw [List.length_take] at this
    omega

theorem hasSuffix_iff (s suf : Str) : HasSuffix s suf = true ↔ suf <:+ s := by
  unfold HasSuffix
  rw [Bool.and_eq_true, decide_eq_true_iff, beq_iff_eq, List.suffix_iff_eq_drop]
  constructor
  · rintro ⟨_, h⟩; exact h.symm
  · intro h
    refine ⟨?_, h.symm⟩
    have := congrArg List.length h
    rw [List.length_drop] at this
    omega

theorem lastIndexFrom_ne_neg_one (sub s : Str) (i : Nat) :
    lastIndexFrom sub s i ≠ -1 ↔ sub <:+: s := by
  induction s generalizing i with
  | nil =>
    simp only [lastIndexFrom]
    by_cases h : HasPrefix [] sub = true
    · have h2 := (hasPrefix_iff _ _).1 h
      simp only [h, if_true]
      exact ⟨fun _ => h2.isInfix, fun _ => by omega⟩
    · simp only [h]
      have h2 : ¬ sub <+: [] := fun hp => h ((hasPrefix_iff _ _).2 hp)
      simp only [List.prefix_nil] at h2
      simp [List.infix_nil, h2]
  | cons c cs ih =>
    simp only [lastIndexFrom]
    rw [List.infix_cons_iff, ← ih (i + 1), ← hasPrefix_iff]
    by_cases h1 : lastIndexFrom sub cs (i + 1) ≠ -1
    · simp [h1]
    · by_cases h2 : HasPrefix (c :: cs) sub = true
      · simp only [h1, h2, if_true, if_false, or_false, iff_true]
        omega
      · simp [h1, h2]

theorem indexFrom_nonneg (sub s : Str) (i : Nat) :
    0 ≤ indexFrom sub s i ↔ sub <:+: s := by
  induction s generalizing i with
  | nil =>
    simp only [indexFrom]
    by_cases h : HasPrefix [] sub = true
    · have h2 := (hasPrefix_iff _ _).1 h
      simp only [h, if_true]
      exact ⟨fun _ => h2.isInfix, fun _ => by omega⟩
    · simp only [h]
      have h2 : ¬ sub <+: [] := fun hp => h ((hasPrefix_iff _ _).2 hp)
      simp only [List.prefix_nil] at h2
      simp [List.infix_nil, h2]
  | cons c cs ih =>
    simp only [indexFrom]
    rw [List.infix_cons_iff, ← ih (i + 1), ← hasPrefix_iff]
    by_cases h2 : HasPrefix (c :: cs) sub = true
    · simp only [h2, if_true, true_or, iff_true]
      omega
    · simp [h2]

theorem contains_iff (s sub : Str) : Contains s sub = true ↔ sub <:+: s := by
  unfold Contains Index
  rw [decide_eq_true_iff, indexFrom_nonneg]

/-- The last instance of `sub` in `q ++ t` is at `|q|` when `t` starts with `sub`
and holds no later instance. -/
theorem lastIndexFrom_append (sub q : Str) (c : Char) (t : Str) (i : Nat)
    (h1 : sub <+: c :: t) (h2 : ¬ sub <:+: t) :
    lastIndexFrom sub (q ++ c :: t) i = ((i + q.length : Nat) : Int) := by
  induction q generalizing i with
  | nil =>
    have h3 : lastIndexFrom sub t (i + 1) = -1 := by
      by_contra h; exact h2 ((lastIndexFrom_ne_neg_one _ _ _).1 h)
    simp [lastIndexFrom, h3, (hasPrefix_iff _ _).2 h1]
  | cons x xs ih =>
    have h3 := ih (i + 1)
    show lastIndexFrom sub (x :: (xs ++ c :: t)) i = _
    simp only [lastIndexFrom, h3]
    have : ((i + 1 + xs.length : Nat) : Int) ≠ -1 := by omega
    simp only [this, ne_eq, not_false_eq_true, if_true, List.length_cons]
    congr 1; omega

theorem dropWhile_append_cons (p : Char → Bool) (a : Str) (c : Char) (t : Str)
    (hc : p c = false) :
    (a ++ c :: t).dropWhile p = a.dropWhile p ++ c :: t := by
  induction a with
  | nil => simp [List.dropWhile, hc]
  | cons x xs ih =>
    by_cases hx : p x = true
    · simp [List.dropWhile, hx, ih]
    · simp [List.dropWhile, hx]

theorem takeWhile_append_cons (p : Char → Bool) (a : Str) (c : Char) (t : Str)
    (ha : ∀ x ∈ a, p x = true) (hc : p c = false) :
    (a ++ c :: t).takeWhile p = a := by
  induction a with
  | nil => simp [List.takeWhile, hc]
  | cons x xs ih =>
    have hx : p x = true := ha x (List.mem_cons_self _ _)
    show (x :: (xs ++ c :: t)).takeWhile p = _
    simp only [List.takeWhile, hx]
    rw [ih (fun y hy => ha y (List.mem_cons_of_mem _ hy))]

/-- The line read from a stream `line ++ "\n" ++ rest` whose `line` has no line
break is `line ++ "\n"`. -/
theorem readString_line (line rest readErr : Str) (h : '\n' ∉ line) :
    ReadString (line ++ '\n' :: rest) readErr '\n' = (line ++ ['\n'], none) := by
  unfold ReadString
  have hm : '\n' ∈ line ++ '\n' :: rest := by simp
  rw [if_pos hm, takeWhile_append_cons]
  · intro x hx
    have : x ≠ '\n' := fun e => h (e ▸ hx)
    simpa using this
  · simp

/-- Trimming `a ++ s ++ b` keeps `s` whole when `s` starts and ends with a
character that is not white space. -/
theorem trimSpace_append (a b m : Str) (c d : Char) (hc : isSpace c = false)
    (hd : isSpace d = false) :
    TrimSpace (a ++ c :: (m ++ d :: b)) =
      a.dropWhile isSpace ++ c :: (m ++ d :: (b.reverse.dropWhile isSpace).reverse) := by
  unfold TrimSpace
  rw [dropWhile_append_cons _ _ _ _ hc]
  have : (a.dropWhile isSpace ++ c :: (m ++ d :: b)).reverse
      = b.reverse ++ d :: (m.reverse ++ c :: (a.dropWhile isSpace).reverse) := by
    simp
  rw [this, dropWhile_append_cons _ _ _ _ hd]
  simp

theorem hasSuffix_append_right (b f suf : Str) (h : suf.length ≤ f.length) :
    HasSuffix (b ++ f) suf = HasSuffix f suf := by
  unfold HasSuffix
  have e : (b ++ f).length - suf.length = b.length + (f.length - suf.length) := by
    rw [List.length_append]; omega
  have h2 : suf.length ≤ (b ++ f).length := by rw [List.length_append]; omega
  rw [e, List.drop_append, decide_eq_true h, decide_eq_true h2]

theorem no_later_colon (X : Str) (hc : ¬ [':', ' '] <:+: X ++ [' ']) :
    ¬ [':', ' '] <:+: ' ' :: (X ++ [' ', 'F', 'O', 'U', 'N', 'D']) := by
  rw [List.infix_cons_iff]
  have h0 : ¬ [':', ' '] <+: ' ' :: (X ++ [' ', 'F', 'O', 'U', 'N', 'D']) := by
    rw [List.cons_prefix_cons]; rintro ⟨h, _⟩; exact absurd h (by decide)
  have h1 : ¬ [':', ' '] <:+: X ++ [' ', 'F', 'O', 'U', 'N', 'D'] := by
    clear h0
    induction X with
    | nil => decide
    | cons x xs ih =>
      rw [List.cons_append, List.infix_cons_iff] at hc ⊢
      rw [not_or] at hc ⊢
      refine ⟨?_, ih hc.2⟩
      intro hp
      apply hc.1
      rw [List.cons_prefix_cons] at hp ⊢
      refine ⟨hp.1, ?_⟩
      cases xs with
      | nil => simp
      | cons y ys =>
        have := hp.2
        rw [List.cons_append, List.cons_prefix_cons] at this ⊢
        exact ⟨this.1, List.nil_prefix⟩
  exact fun h => h.elim h0 h1

/-- The trimmed response to a reply `<path>: X FOUND` followed by a line break. -/
theorem trimSpace_found (path X : Str) :
    TrimSpace (path ++ ": ".toList ++ X ++ " FOUND".toList ++ ['\n'])
      = path.dropWhile isSpace ++ ':' :: ' ' :: (X ++ [' ', 'F', 'O', 'U', 'N', 'D']) := by
  have e : path ++ ": ".toList ++ X ++ " FOUND".toList ++ ['\n']
      = path ++ ':' :: ((' ' :: (X ++ [' ', 'F', 'O', 'U', 'N'])) ++ 'D' :: ['\n']) := by
    simp
  rw [e, trimSpace_append _ _ _ _ _ (by decide) (by decide)]
  simp [List.dropWhile, show isSpace '\n' = true by decide]

/-- Trimmed form of a line that holds `ERROR`, with or without its line break. -/
theorem trimSpace_error (a b : Str) :
    TrimSpace (a ++ "ERROR".toList ++ b ++ ['\n']) = TrimSpace (a ++ "ERROR".toList ++ b) ∧
    TrimSpace (a ++ "ERROR".toList ++ b)
      = a.dropWhile isSpace ++ "ERROR".toList ++ (b.reverse.dropWhile isSpace).reverse := by
  have e1 : a ++ "ERROR".toList ++ b ++ ['\n']
      = a ++ 'E' :: (['R', 'R', 'O'] ++ 'R' :: (b ++ ['\n'])) := by simp
  have e2 : a ++ "ERROR".toList ++ b = a ++ 'E' :: (['R', 'R', 'O'] ++ 'R' :: b) := by simp
  rw [e1, e2, trimSpace_append _ _ _ _ _ (by decide) (by decide),
    trimSpace_append _ _ _ _ _ (by decide) (by decide)]
  have e3 : ((b ++ ['\n']).reverse.dropWhile isSpace) = b.reverse.dropWhile isSpace := by
    simp [List.dropWhile, show isSpace '\n' = true by decide]
  rw [e3]
  simp

/-! ## Properties of the scan-engine client -/

/-- C2, as stated, fails: for the threat name `a: b` the reply `/f: a: b FOUND`
yields the threat `b`, the text after the last `": "` of the line; and for a path
with a line break only the first line of the reply is read, which is unclassified. -/
theorem scanFile_threat_name_cut :
    '\n' ∉ "a: b".toList ∧
    ScanFile (.sends ("/f".toList ++ ": ".toList ++ "a: b".toList ++ " FOUND".toList ++ ['\n'])
        "EOF".toList) ⟨2024, 1, 1, 0, 0, 0, 0⟩ "/f".toList
      = some { Path := "/f".toList, Clean := false, Threat := "b".toList, Error := none,
               ScannedAt := ⟨2024, 1, 1, 0, 0, 0, 0⟩ } ∧
    "b".toList ≠ "a: b".toList ∧
    ScanFile (.sends ("/a\nb".toList ++ ": ".toList ++ "X".toList ++ " FOUND".toList ++ ['\n'])
        "EOF".toList) ⟨2024, 1, 1, 0, 0, 0, 0⟩ "/a\nb".toList
      = some { Path := "/a\nb".toList, Clean := false, Threat := [], Error := none,
               ScannedAt := ⟨2024, 1, 1, 0, 0, 0, 0⟩ } := by
  decide

/-- C2 (amended): for every path and threat name `X`, both without line break, where
`X` followed by a space holds no `": "` (so `X` holds no `": "` and does not end in a
colon), the reply `<path>: X FOUND` makes `ScanFile` return `Clean = false`,
`Threat = X` and no error. -/
theorem scanFile_threat_found (path X readErr : Str) (now : Time)
    (hp : '\n' ∉ path) (hX : '\n' ∉ X) (hc : ¬ ": ".toList <:+: X ++ [' ']) :
    ScanFile (.sends (path ++ ": ".toList ++ X ++ " FOUND".toList ++ ['\n']) readErr) now path
      = some { Path := path, Clean := false, Threat := X, Error := none,
               ScannedAt := now } := by
  have hline : '\n' ∉ path ++ ": ".toList ++ X ++ " FOUND".toList := by
    simp only [List.mem_append, not_or]
    exact ⟨⟨⟨hp, by decide⟩, hX⟩, by decide⟩
  have hr := readString_line (path ++ ": ".toList ++ X ++ " FOUND".toList) [] readErr hline
  unfold ScanFile
  simp only [hr]
  unfold classify
  simp only [trimSpace_found]
  set q := path.dropWhile isSpace with hq
  have eresp : q ++ ':' :: ' ' :: (X ++ [' ', 'F', 'O', 'U', 'N', 'D'])
      = (q ++ ':' :: ' ' :: X) ++ " FOUND".toList := by simp
  have hok : HasSuffix (q ++ ':' :: ' ' :: (X ++ [' ', 'F', 'O', 'U', 'N', 'D'])) " OK".toList
      = false := by
    rw [eresp, hasSuffix_append_right _ _ _ (by decide)]; decide
  have hfound : HasSuffix (q ++ ':' :: ' ' :: (X ++ [' ', 'F', 'O', 'U', 'N', 'D']))
      " FOUND".toList = true := by
    rw [eresp, hasSuffix_append_right _ _ _ (by decide)]; decide
  have hidx : LastIndex (q ++ ':' :: ' ' :: (X ++ [' ', 'F', 'O', 'U', 'N', 'D'])) ": ".toList
      = (q.length : Int) := by
    unfold LastIndex
    show lastIndexFrom [':', ' '] _ 0 = _
    rw [lastIndexFrom_append _ q ':' _ 0 (by simp) (no_later_colon X hc)]
    simp
  have hslice : slice (q ++ ':' :: ' ' :: (X ++ [' ', 'F', 'O', 'U', 'N', 'D']))
      ((q.length : Int) + 2)
      (((q ++ ':' :: ' ' :: (X ++ [' ', 'F', 'O', 'U', 'N', 'D'])).length : Int) - 6)
      = some X := by
    unfold slice
    have hlen : (q ++ ':' :: ' ' :: (X ++ [' ', 'F', 'O', 'U', 'N', 'D'])).length
        = q.length + 2 + X.length + 6 := by simp; omega
    rw [hlen, if_pos (by omega)]
    have e1 : ((q.length : Int) + 2).toNat = q.length + 2 := by omega
    have e2 : (((q.length + 2 + X.length + 6 : Nat) : Int) - 6).toNat - (q.length + 2)
        = X.length := by omega
    rw [e1, e2]
    have e3 : q ++ ':' :: ' ' :: (X ++ [' ', 'F', 'O', 'U', 'N', 'D'])
        = (q ++ [':', ' ']) ++ (X ++ [' ', 'F', 'O', 'U', 'N', 'D']) := by simp
    have e4 : q.length + 2 = (q ++ [':', ' ']).length := by simp
    rw [e3, e4, List.drop_left, List.take_left]
  have hne : (q.length : Int) ≠ -1 := by omega
  simp only [hok, hfound, hidx, hslice, hne]
  simp

/-- Instance of `scanFile_threat_found`: the reply of the repository's own test. -/
theorem scanFile_threat_found_witness :
    ScanFile (.sends "/tmp/infected.txt: Eicar-Test-Signature FOUND\n".toList "EOF".toList)
        ⟨2024, 1, 1, 0, 0, 0, 0⟩ "/tmp/infected.txt".toList
      = some { Path := "/tmp/infected.txt".toList, Clean := false,
               Threat := "Eicar-Test-Signature".toList, Error := none,
               ScannedAt := ⟨2024, 1, 1, 0, 0, 0, 0⟩ } :=
  scanFile_threat_found "/tmp/infected.txt".toList "Eicar-Test-Signature".toList
    "EOF".toList ⟨2024, 1, 1, 0, 0, 0, 0⟩ (by decide) (by decide) (by decide)

/-- C3: on the reply line `/f: FOUND` the slice `response[colonIdx+2 : len(response)-6]`
has bounds `[4:3]`, out of range: `ScanFile` panics instead of returning a result. -/
theorem scanFile_panics_on_bare_found :
    LastIndex "/f: FOUND".toList ": ".toList = 2 ∧
    slice "/f: FOUND".toList (2 + 2) (("/f: FOUND".toList.length : Int) - 6) = none ∧
    ScanFile (.sends "/f: FOUND\n".toList "EOF".toList) ⟨2024, 1, 1, 0, 0, 0, 0⟩ "/f".toList
      = none := by
  decide

/-- C4, as stated, fails: the reply `/tmp/ERROR.log: OK` holds `ERROR` and is
classified clean, with a nil error. -/
theorem scanFile_error_in_clean_reply :
    "ERROR".toList <:+: "/tmp/ERROR.log: OK".toList ∧
    ScanFile (.sends "/tmp/ERROR.log: OK\n".toList "EOF".toList) ⟨2024, 1, 1, 0, 0, 0, 0⟩
        "/tmp/ERROR.log".toList
      = some { Path := "/tmp/ERROR.log".toList, Clean := true, Threat := [], Error := none,
               ScannedAt := ⟨2024, 1, 1, 0, 0, 0, 0⟩ } := by
  decide

/-- C4 (amended): for every reply line that holds `ERROR` and, once trimmed, ends with
neither `" OK"` nor `" FOUND"`, `ScanFile` returns a non-nil error whose message is
`clamd error: ` followed by the trimmed line. -/
theorem scanFile_error_reply (line readErr path : Str) (now : Time)
    (hl : '\n' ∉ line) (hE : "ERROR".toList <:+: line)
    (hok : ¬ " OK".toList <:+ TrimSpace line)
    (hfound : ¬ " FOUND".toList <:+ TrimSpace line) :
    ScanFile (.sends (line ++ ['\n']) readErr) now path
      = some { Path := path, Clean := false, Threat := [],
               Error := some ("clamd error: ".toList ++ TrimSpace line),
               ScannedAt := now } := by
  have hr := readString_line line [] readErr hl
  unfold ScanFile
  simp only [hr]
  unfold classify
  obtain ⟨a, b, rfl⟩ := hE
  have ht := trimSpace_error a b
  have h1 : HasSuffix (TrimSpace (a ++ "ERROR".toList ++ b)) " OK".toList = false := by
    rw [Bool.eq_false_iff, ne_eq, hasSuffix_iff]; exact hok
  have h2 : HasSuffix (TrimSpace (a ++ "ERROR".toList ++ b)) " FOUND".toList = false := by
    rw [Bool.eq_false_iff, ne_eq, hasSuffix_iff]; exact hfound
  have h3 : Contains (TrimSpace (a ++ "ERROR".toList ++ b)) "ERROR".toList = true := by
    rw [contains_iff, ht.2]
    exact ⟨_, _, rfl⟩
  simp only [ht.1, h1, h2, h3]
  simp

/-- Instance of `scanFile_error_reply`: the reply of the repository's own test. -/
theorem scanFile_error_reply_witness :
    ScanFile (.sends "/path: lstat() failed: No such file. ERROR\n".toList "EOF".toList)
        ⟨2024, 1, 1, 0, 0, 0, 0⟩ "/nonexistent/file".toList
      = some { Path := "/nonexistent/file".toList, Clean := false, Threat := [],
               Error := some ("clamd error: ".toList ++
                 TrimSpace "/path: lstat() failed: No such file. ERROR".toList),
               ScannedAt := ⟨2024, 1, 1, 0, 0, 0, 0⟩ } :=
  scanFile_error_reply "/path: lstat() failed: No such file. ERROR".toList "EOF".toList
    "/nonexistent/file".toList ⟨2024, 1, 1, 0, 0, 0, 0⟩ (by decide) (by decide) (by decide)
    (by decide)

/-! ## Lemmas on the broadcast and on the state machine -/

/-- The response of a push event. -/
theorem makeResponse_event (oldState newState : Str) :
    makeResponse "event".toList (some (.stateChange oldState newState))
      = { ID := "event".toList, Success := true,
          Data := some (.stateChange oldState newState), Error := [] } := rfl

/-- The loop of `broadcastStateChange` over the snapshot `l`, from any server and
any log of writes. -/
theorem broadcast_fold (writeOk : Conn → Bool) (resp : Response) (l : List Conn)
    (s : Server) (log : List (Conn × Response)) :
    let r := l.foldl
      (fun (acc : Server × List (Conn × Response)) conn =>
        if writeOk conn then (acc.1, acc.2 ++ [(conn, resp)])
        else (unsubscribe acc.1 conn, acc.2 ++ [(conn, resp)]))
      (s, log)
    r.1.daemon = s.daemon ∧
    r.1.subscribers = s.subscribers.filter (fun c => decide (c ∉ l) || writeOk c) ∧
    r.2 = log ++ l.map (fun c => (c, resp)) := by
  induction l generalizing s log with
  | nil => simp
  | cons conn rest ih =>
    simp only [List.foldl_cons]
    by_cases hw : writeOk conn = true
    · simp only [hw, if_true]
      obtain ⟨h1, h2, h3⟩ := ih s (log ++ [(conn, resp)])
      refine ⟨h1, ?_, ?_⟩
      · rw [h2]
        apply List.filter_congr
        intro c _
        by_cases hc : c = conn
        · subst hc; simp [hw]
        · simp [hc]
      · rw [h3]; simp
    · have hw2 : writeOk conn = false := by simpa using hw
      simp only [hw2, Bool.false_eq_true, if_false]
      obtain ⟨h1, h2, h3⟩ := ih (unsubscribe s conn) (log ++ [(conn, resp)])
      refine ⟨h1, ?_, ?_⟩
      · rw [h2]
        simp only [unsubscribe, List.filter_filter]
        apply List.filter_congr
        intro c _
        by_cases hc : c = conn
        · subst hc; simp [hw]
        · simp [hc]
      · rw [h3]; simp

/-- What `broadcastStateChange` returns: the daemon untouched, the subscribers
whose write succeeded, one write per subscriber of the snapshot. -/
theorem broadcast_eq (s : Server) (writeOk : Conn → Bool) (oldState newState : Str) :
    (broadcastStateChange s writeOk oldState newState).1.daemon = s.daemon ∧
    (broadcastStateChange s writeOk oldState newState).1.subscribers
      = s.subscribers.filter writeOk ∧
    (broadcastStateChange s writeOk oldState newState).2
      = s.subscribers.map (fun c => (c, makeResponse "event".toList
          (some (.stateChange oldState newState)))) := by
  obtain ⟨h1, h2, h3⟩ := broadcast_fold writeOk
    (makeResponse "event".toList (some (.stateChange oldState newState))) s.subscribers s []
  unfold broadcastStateChange
  refine ⟨h1, ?_, ?_⟩
  · rw [h2]
    apply List.filter_congr
    intro c hc
    simp [hc]
  · rw [h3]; simp

/-- The state machine holds the new state after `SetState`, and nothing else of the
daemon changes. -/
theorem setState_daemon (s : Server) (writeOk : Conn → Bool) (new : State) :
    (SetState s writeOk new).1.daemon = { s.daemon with state := new } := by
  unfold SetState
  exact (broadcast_eq _ writeOk _ _).1

theorem visit_some (acc : ScanAcc) (n : Node) (h : n.scans = true) :
    ∃ acc2, visit acc n = some acc2 := by
  cases n with
  | inaccessible p => exact ⟨acc, rfl⟩
  | dir p => exact ⟨acc, rfl⟩
  | file path size peer now =>
    simp only [Node.scans, Option.isSome_iff_exists] at h
    obtain ⟨result, hr⟩ := h
    simp only [visit, hr]
    by_cases he : result.Error ≠ none
    · simp [he]
    · by_cases hcl : result.Clean = true <;> simp [he, hcl]

theorem scanDirectory_some (nodes : List Node) (acc : ScanAcc)
    (h : ∀ n ∈ nodes, n.scans = true) : ∃ acc2, scanDirectory nodes acc = some acc2 := by
  unfold scanDirectory
  induction nodes generalizing acc with
  | nil => exact ⟨acc, rfl⟩
  | cons n rest ih =>
    obtain ⟨a1, h1⟩ := visit_some acc n (h n (List.mem_cons_self _ _))
    obtain ⟨a2, h2⟩ := ih a1 (fun m hm => h m (List.mem_cons_of_mem _ hm))
    exact ⟨a2, by simp [List.foldlM_cons, h1, h2]⟩

theorem scanPaths_some (walk : Str → List Node) (paths : List Str) (acc : ScanAcc)
    (h : ∀ basePath ∈ paths, ∀ n ∈ walk basePath, n.scans = true) :
    ∃ acc2, paths.foldlM (fun acc basePath => scanDirectory (walk basePath) acc) acc
      = some acc2 := by
  induction paths generalizing acc with
  | nil => exact ⟨acc, rfl⟩
  | cons p rest ih =>
    obtain ⟨a1, h1⟩ := scanDirectory_some (walk p) acc (h p (List.mem_cons_self _ _))
    obtain ⟨a2, h2⟩ := ih a1 (fun q hq => h q (List.mem_cons_of_mem _ hq))
    exact ⟨a2, by simp [List.foldlM_cons, h1, h2]⟩

/-! ## Properties of the IPC server -/

/-- A request with a mismatched version whose command is not `subscribe` is
rejected by the loop body with a non-empty error, and has no effect. -/
theorem version_mismatch_rejected (pv : Int) (env : Env) (s : Server) (conn : Conn)
    (req : Request) (hsub : req.Command ≠ CmdSubscribe) (hv0 : req.Version ≠ 0)
    (hv : req.Version ≠ pv) :
    (handleConnectionBody pv env s conn req).1 = s ∧
    (handleConnectionBody pv env s conn req).2.1.Success = false ∧
    (handleConnectionBody pv env s conn req).2.1.Error ≠ [] ∧
    "protocol version mismatch".toList <+: (handleConnectionBody pv env s conn req).2.1.Error ∧
    (handleConnectionBody pv env s conn req).2.2.pushes = [] ∧
    (handleConnectionBody pv env s conn req).2.2.launched = [] := by
  have hc : (req.Version ≠ 0 ∧ req.Version ≠ pv) := ⟨hv0, hv⟩
  simp only [handleConnectionBody, hsub, if_false, handleRequest, if_pos hc]
  refine ⟨trivial, trivial, ?_, ?_, trivial, trivial⟩
  · simp
  · exact ⟨": client=".toList ++ fmtInt req.Version ++ ", server=".toList ++ fmtInt pv,
      by simp⟩

/-- C1: a `subscribe` request never reaches the version check of `handleRequest`:
with a non-zero version that differs from the server's, the loop body of
`handleConnection` answers `success = true` with the data `"subscribed"` and adds the
connection to the subscriber set; that response is what the connection writes. -/
theorem subscribe_skips_version_check (pv : Int) (env : Env) (s : Server) (conn : Conn)
    (id : Str) (v : Int) (_hv0 : v ≠ 0) (_hv : v ≠ pv) :
    (handleConnectionBody pv env s conn ⟨id, CmdSubscribe, v⟩).2.1
      = { ID := id, Success := true, Data := some (.text "subscribed".toList), Error := [] } ∧
    conn ∈ (handleConnectionBody pv env s conn ⟨id, CmdSubscribe, v⟩).1.subscribers ∧
    (handleConnection pv conn s [⟨some ⟨id, CmdSubscribe, v⟩, env, true⟩]).2
      = [{ ID := id, Success := true, Data := some (.text "subscribed".toList),
           Error := [] }] := by
  refine ⟨?_, ?_, ?_⟩
  · simp only [handleConnectionBody, if_true, makeResponse]
  · simp only [handleConnectionBody, if_true]
    unfold subscribe
    by_cases h : conn ∈ s.subscribers <;> simp [h]
  · simp only [handleConnection, handleConnectionBody, if_true, makeResponse]

/-- Instance of `subscribe_skips_version_check`: version 999 against the server's
version 1, on a server without subscriber. -/
theorem subscribe_skips_version_check_witness :
    (999 : Int) ≠ 0 ∧ (999 : Int) ≠ 1 ∧
    (handleConnectionBody 1 sampleEnv sampleServer 7 ⟨"1".toList, CmdSubscribe, 999⟩).2.1
      = { ID := "1".toList, Success := true, Data := some (.text "subscribed".toList),
          Error := [] } ∧
    (handleConnectionBody 1 sampleEnv sampleServer 7
          ⟨"1".toList, CmdSubscribe, 999⟩).1.subscribers = [7] :=
  ⟨by decide, by decide,
   (subscribe_skips_version_check 1 sampleEnv sampleServer 7 "1".toList 999 (by decide)
      (by decide)).1, by decide⟩

/-- The terminal state of a scan run, in terms of its own count of threats.  If the
scan engine is unavailable the run returns with the state `Warning`, no file handed to
`ScanFile` and the last-scan time unchanged.  Otherwise a run that returns ends in
`Alert` when its count of threats is positive and in `Protected` when it is not, with
the last-scan time set; and the run returns whenever no scan of a visited file
panics. -/
theorem runScan_terminal_state (env : ScanEnv) (s : Server) (scanType : Str) :
    (IsAvailable env.socketExists env.probe = false →
      ∃ r, runScan env s scanType = some r ∧ r.server.daemon.state = StateWarning ∧
        r.scanCalls = [] ∧ r.server.daemon.lastScan = s.daemon.lastScan) ∧
    (IsAvailable env.socketExists env.probe = true →
      (∀ r, runScan env s scanType = some r →
        r.server.daemon.state = (if r.threatsFound > 0 then StateAlert else StateProtected) ∧
        r.server.daemon.lastScan = env.finish) ∧
      ((∀ basePath ∈ scanPaths s scanType, ∀ n ∈ env.walk basePath, n.scans = true) →
        ∃ r, runScan env s scanType = some r)) := by
  refine ⟨fun hav => ?_, fun hav => ⟨fun r hr => ?_, fun hsafe => ?_⟩⟩
  · simp only [runScan, hav, Bool.not_false, if_true]
    refine ⟨_, rfl, ?_, rfl, ?_⟩
    · simp [setState_daemon]
    · simp [setState_daemon]
  · simp only [runScan, hav, Bool.not_true, Bool.false_eq_true, if_false] at hr
    split at hr
    · exact absurd hr (by simp)
    · rename_i acc hacc
      simp only [Option.some.injEq] at hr
      subst hr
      by_cases ht : acc.threatsFound > 0
      · simp [ht, setState_daemon, SetLastScan]
      · simp [ht, setState_daemon, SetLastScan]
  · obtain ⟨acc, hacc⟩ := scanPaths_some env.walk (scanPaths s scanType)
      { filesScanned := 0, threatsFound := 0, events := [], scanCalls := [] } hsafe
    simp only [runScan, hav, Bool.not_true, Bool.false_eq_true, if_false, hacc]
    exact ⟨_, rfl⟩

/-- Instance of `runScan_terminal_state`: a quick scan that meets one infected file
returns and ends in `Alert`. -/
theorem runScan_terminal_state_witness :
    (∃ r, runScan sampleScanEnv sampleServer "quick".toList = some r) ∧
    (runScan sampleScanEnv sampleServer "quick".toList).map
        (fun r => (r.server.daemon.state, r.filesScanned, r.threatsFound))
      = some (StateAlert, 2, 1) :=
  ⟨(runScan_terminal_state sampleScanEnv sampleServer "quick".toList).2 (by decide) |>.2
      (by decide), by decide⟩

/-- C6: for every subscriber set `S` (the distinct keys of the map) and states
`(old, new)`, `broadcastStateChange` attempts exactly one write to each connection of
`S`, each of the response with id `event`, `success = true` and data
`{old_state: old, new_state: new}`; afterwards a connection is subscribed exactly
when it was in `S` and its write succeeded, and the daemon is untouched. -/
theorem broadcastStateChange_spec (s : Server) (writeOk : Conn → Bool)
    (oldState newState : Str) (hS : s.subscribers.Nodup) :
    (∀ c, ((broadcastStateChange s writeOk oldState newState).2.map Prod.fst).count c
        = if c ∈ s.subscribers then 1 else 0) ∧
    (∀ w ∈ (broadcastStateChange s writeOk oldState newState).2,
        w.2 = { ID := "event".toList, Success := true,
                Data := some (.stateChange oldState newState), Error := [] }) ∧
    (broadcastStateChange s writeOk oldState newState).1.subscribers
      = s.subscribers.filter writeOk ∧
    (∀ c, c ∈ (broadcastStateChange s writeOk oldState newState).1.subscribers
        ↔ c ∈ s.subscribers ∧ writeOk c = true) ∧
    (broadcastStateChange s writeOk oldState newState).1.daemon = s.daemon := by
  obtain ⟨h1, h2, h3⟩ := broadcast_eq s writeOk oldState newState
  refine ⟨?_, ?_, h2, ?_, h1⟩
  · intro c
    have hm : (s.subscribers.map (fun c : Conn => (c, makeResponse "event".toList
        (some (Data.stateChange oldState newState))))).map Prod.fst = s.subscribers := by
      rw [List.map_map]
      exact List.map_id _
    rw [h3, hm]
    by_cases hc : c ∈ s.subscribers
    · rw [if_pos hc]; exact List.count_eq_one_of_mem hS hc
    · rw [if_neg hc]; exact List.count_eq_zero_of_not_mem hc
  · intro w hw
    rw [h3, List.mem_map] at hw
    obtain ⟨c, _, rfl⟩ := hw
    rfl
  · intro c
    rw [h2, List.mem_filter]

/-- Instance of `broadcastStateChange_spec`: three subscribers, the write to the
second fails and only that one is unsubscribed. -/
theorem broadcastStateChange_spec_witness :
    ([3, 5, 8] : List Conn).Nodup ∧
    (broadcastStateChange { sampleServer with subscribers := [3, 5, 8] } (fun c => c != 5)
        "protected".toList "paused".toList).1.subscribers = [3, 8] :=
  ⟨by decide,
   (broadcastStateChange_spec { sampleServer with subscribers := [3, 5, 8] }
      (fun c => c != 5) "protected".toList "paused".toList (by decide)).2.2.1.trans
      (by decide)⟩

/-- C8: the job ID of the response and the job ID of the run are made from two
readings of the clock.  A `scan_quick` request handled at 23:59:59.9 is answered
with `quick-20240101-235959`; the run it launches, which starts at 00:00:00.1,
carries `quick-20240102-000000` in its job-level scan event. -/
theorem scan_jobID_differs :
    (handleRequest 1 sampleEnv sampleServer ⟨"1".toList, CmdScanQuick, 1⟩).2.1
      = { ID := "1".toList, Success := true,
          Data := some (.scan "quick-20240101-235959".toList), Error := [] } ∧
    (handleRequest 1 sampleEnv sampleServer ⟨"1".toList, CmdScanQuick, 1⟩).2.2.launched
      = ["quick".toList] ∧
    (runScan sampleScanEnv
        (handleRequest 1 sampleEnv sampleServer ⟨"1".toList, CmdScanQuick, 1⟩).1
        "quick".toList).map
        (fun r => r.events.getLast?.map (fun b => (b.EventType, b.field FieldJobID)))
      = some (some ("scan".toList, some (.str "quick-20240102-000000".toList))) := by
  decide

/-- C9: for every state of the server and every request id, a `ping` request whose
version is 0 or the server's gets the response with that id, `success = true`, the
data `"pong"` and no error; the server (protection state, firewall flag, subscribers)
is unchanged, nothing is pushed and no scan is launched. -/
theorem ping_pong (pv : Int) (env : Env) (s : Server) (id : Str) (v : Int)
    (hv : v = 0 ∨ v = pv) :
    (handleRequest pv env s ⟨id, CmdPing, v⟩).2.1
      = { ID := id, Success := true, Data := some (.text "pong".toList), Error := [] } ∧
    (handleRequest pv env s ⟨id, CmdPing, v⟩).1 = s ∧
    (handleRequest pv env s ⟨id, CmdPing, v⟩).2.2.pushes = [] ∧
    (handleRequest pv env s ⟨id, CmdPing, v⟩).2.2.launched = [] := by
  have hc : ¬ (v ≠ 0 ∧ v ≠ pv) := by
    rintro ⟨h0, h1⟩; exact hv.elim h0 h1
  simp only [handleRequest, if_neg hc, handleCommand, if_true, makeResponse, and_self]

/-- Instance of `ping_pong`: a legacy client (version 0) while the daemon is paused
with the firewall on. -/
theorem ping_pong_witness :
    (handleRequest 1 sampleEnv
        { sampleServer with daemon := { sampleServer.daemon with
            state := StatePaused, firewallEnabled := true } }
        ⟨"42".toList, CmdPing, 0⟩).2.1
      = { ID := "42".toList, Success := true, Data := some (.text "pong".toList),
          Error := [] } :=
  (ping_pong 1 sampleEnv _ "42".toList 0 (Or.inl rfl)).1

/-- C10: for every request that passes the version check and whose command is not a
recognized one, `handleRequest` returns the response with the request's id,
`success = false` and the error `unknown command: ` followed by the command as sent
(so the error is non-empty and holds the command); the server is unchanged. -/
theorem unknown_command_rejected (pv : Int) (env : Env) (s : Server) (req : Request)
    (hv : req.Version = 0 ∨ req.Version = pv) (hcmd : req.Command ∉ recognized) :
    (handleRequest pv env s req).2.1
      = { ID := req.ID, Success := false, Data := none,
          Error := "unknown command: ".toList ++ req.Command } ∧
    (handleRequest pv env s req).2.1.Error ≠ [] ∧
    req.Command <:+: (handleRequest pv env s req).2.1.Error ∧
    (handleRequest pv env s req).1 = s ∧
    (handleRequest pv env s req).2.2.pushes = [] ∧
    (handleRequest pv env s req).2.2.launched = [] := by
  have hc : ¬ (req.Version ≠ 0 ∧ req.Version ≠ pv) := by
    rintro ⟨h0, h1⟩; exact hv.elim h0 h1
  simp only [recognized, List.mem_cons, List.mem_singleton, not_or, List.not_mem_nil,
    or_false] at hcmd
  obtain ⟨c1, c2, c3, c4, c5, c6, c7, c8, c9, _⟩ := hcmd
  simp only [handleRequest, if_neg hc, handleCommand, c1, c2, c3, c4, c5, c6, c7, c8, c9,
    if_false]
  refine ⟨trivial, ?_, ?_, trivial, trivial, trivial⟩
  · simp
  · exact (List.suffix_append ("unknown command: ".toList) req.Command).isInfix

/-- Instance of `unknown_command_rejected`: the command of the repository's test. -/
theorem unknown_command_rejected_witness :
    (handleRequest 1 sampleEnv sampleServer ⟨"1".toList, "unknown_command".toList, 0⟩).2.1
      = { ID := "1".toList, Success := false, Data := none,
          Error := "unknown command: unknown_command".toList } :=
  (unknown_command_rejected 1 sampleEnv sampleServer
    ⟨"1".toList, "unknown_command".toList, 0⟩ (Or.inl rfl) (by decide)).1

/-! ## Pause, resume, firewall and scan commands -/

/-- C11: for every starting state, a `pause` request that passes the version check
succeeds and leaves the state `Paused`, a `resume` request succeeds and leaves the
state `Protected`, and a `status` request handled afterwards reports `paused`
respectively `protected`. -/
theorem pause_resume_status (pv : Int) (env env2 : Env) (s : Server) (id id2 : Str)
    (v v2 : Int) (hv : v = 0 ∨ v = pv) (hv2 : v2 = 0 ∨ v2 = pv) :
    (handleRequest pv env s ⟨id, CmdPause, v⟩).2.1
      = { ID := id, Success := true, Data := some (.text "protection paused".toList),
          Error := [] } ∧
    (handleRequest pv env s ⟨id, CmdPause, v⟩).1.daemon.state = StatePaused ∧
    (handleRequest pv env2 (handleRequest pv env s ⟨id, CmdPause, v⟩).1
        ⟨id2, CmdStatus, v2⟩).2.1
      = { ID := id2, Success := true,
          Data := some (.status "paused".toList s.daemon.firewallEnabled s.daemon.lastScan
            s.daemon.rulesUpdated),
          Error := [] } ∧
    (handleRequest pv env s ⟨id, CmdResume, v⟩).2.1
      = { ID := id, Success := true, Data := some (.text "protection resumed".toList),
          Error := [] } ∧
    (handleRequest pv env s ⟨id, CmdResume, v⟩).1.daemon.state = StateProtected ∧
    (handleRequest pv env2 (handleRequest pv env s ⟨id, CmdResume, v⟩).1
        ⟨id2, CmdStatus, v2⟩).2.1
      = { ID := id2, Success := true,
          Data := some (.status "protected".toList s.daemon.firewallEnabled s.daemon.lastScan
            s.daemon.rulesUpdated),
          Error := [] } := by
  have hc : ¬ (v ≠ 0 ∧ v ≠ pv) := by
    rintro ⟨h0, h1⟩; exact hv.elim h0 h1
  have hc2 : ¬ (v2 ≠ 0 ∧ v2 ≠ pv) := by
    rintro ⟨h0, h1⟩; exact hv2.elim h0 h1
  have e1 : CmdPause ≠ CmdPing := by decide
  have e2 : CmdPause ≠ CmdStatus := by decide
  have e3 : CmdPause ≠ CmdFirewallEnable := by decide
  have e4 : CmdPause ≠ CmdFirewallDisable := by decide
  have e5 : CmdPause ≠ CmdFirewallStatus := by decide
  have e6 : CmdPause ≠ CmdScanQuick := by decide
  have e7 : CmdPause ≠ CmdScanFull := by decide
  have f1 : CmdResume ≠ CmdPing := by decide
  have f2 : CmdResume ≠ CmdStatus := by decide
  have f3 : CmdResume ≠ CmdFirewallEnable := by decide
  have f4 : CmdResume ≠ CmdFirewallDisable := by decide
  have f5 : CmdResume ≠ CmdFirewallStatus := by decide
  have f6 : CmdResume ≠ CmdScanQuick := by decide
  have f7 : CmdResume ≠ CmdScanFull := by decide
  have f8 : CmdResume ≠ CmdPause := by decide
  have g1 : CmdStatus ≠ CmdPing := by decide
  have hp : (handleRequest pv env s ⟨id, CmdPause, v⟩).1 = (SetState s env.writeOk StatePaused).1 := by
    simp only [handleRequest, if_neg hc, handleCommand, e1, e2, e3, e4, e5, e6, e7, if_false,
      if_true]
  have hr : (handleRequest pv env s ⟨id, CmdResume, v⟩).1
      = (SetState s env.writeOk StateProtected).1 := by
    simp only [handleRequest, if_neg hc, handleCommand, f1, f2, f3, f4, f5, f6, f7, f8,
      if_false, if_true]
  refine ⟨?_, ?_, ?_, ?_, ?_, ?_⟩
  · simp only [handleRequest, if_neg hc, handleCommand, e1, e2, e3, e4, e5, e6, e7, if_false,
      if_true, makeResponse]
  · rw [hp, setState_daemon]
  · rw [hp]
    simp only [handleRequest, if_neg hc2, handleCommand, g1, if_false, if_true, makeResponse,
      setState_daemon]
    rfl
  · simp only [handleRequest, if_neg hc, handleCommand, f1, f2, f3, f4, f5, f6, f7, f8,
      if_false, if_true, makeResponse]
  · rw [hr, setState_daemon]
  · rw [hr]
    simp only [handleRequest, if_neg hc2, handleCommand, g1, if_false, if_true, makeResponse,
      setState_daemon]
    rfl

/-- Instance of `pause_resume_status`: a daemon in the state `Alert` is paused by a
legacy client, and a status request with the server's version reports `paused`. -/
theorem pause_resume_status_witness :
    (handleRequest 1 sampleEnv
        (handleRequest 1 sampleEnv
          { sampleServer with daemon := { sampleServer.daemon with state := StateAlert } }
          ⟨"1".toList, CmdPause, 0⟩).1
        ⟨"2".toList, CmdStatus, 1⟩).2.1
      = { ID := "2".toList, Success := true,
          Data := some (.status "paused".toList false ⟨2023, 12, 31, 8, 0, 0, 0⟩
            ⟨2023, 12, 30, 8, 0, 0, 0⟩),
          Error := [] } :=
  (pause_resume_status 1 sampleEnv sampleEnv
    { sampleServer with daemon := { sampleServer.daemon with state := StateAlert } }
    "1".toList "2".toList 0 1 (Or.inl rfl) (Or.inr rfl)).2.2.1

/-- C12: for every state of the server, after a `firewall_enable` request that passes
the version check the firewall flag is true and after a `firewall_disable` request it
is false; both answer `success = true`, and neither changes the protection state or
the subscriber set (nor anything else of the daemon), pushes an event or launches a
scan. -/
theorem firewall_toggle (pv : Int) (env : Env) (s : Server) (id : Str) (v : Int)
    (hv : v = 0 ∨ v = pv) :
    (handleRequest pv env s ⟨id, CmdFirewallEnable, v⟩).1
      = { s with daemon := { s.daemon with firewallEnabled := true } } ∧
    (handleRequest pv env s ⟨id, CmdFirewallEnable, v⟩).2.1
      = { ID := id, Success := true, Data := some (.text "firewall enabled".toList),
          Error := [] } ∧
    (handleRequest pv env s ⟨id, CmdFirewallEnable, v⟩).2.2.pushes = [] ∧
    (handleRequest pv env s ⟨id, CmdFirewallEnable, v⟩).2.2.launched = [] ∧
    (handleRequest pv env s ⟨id, CmdFirewallDisable, v⟩).1
      = { s with daemon := { s.daemon with firewallEnabled := false } } ∧
    (handleRequest pv env s ⟨id, CmdFirewallDisable, v⟩).2.1
      = { ID := id, Success := true, Data := some (.text "firewall disabled".toList),
          Error := [] } ∧
    (handleRequest pv env s ⟨id, CmdFirewallDisable, v⟩).2.2.pushes = [] ∧
    (handleRequest pv env s ⟨id, CmdFirewallDisable, v⟩).2.2.launched = [] := by
  have hc : ¬ (v ≠ 0 ∧ v ≠ pv) := by
    rintro ⟨h0, h1⟩; exact hv.elim h0 h1
  have e1 : CmdFirewallEnable ≠ CmdPing := by decide
  have e2 : CmdFirewallEnable ≠ CmdStatus := by decide
  have f1 : CmdFirewallDisable ≠ CmdPing := by decide
  have f2 : CmdFirewallDisable ≠ CmdStatus := by decide
  have f3 : CmdFirewallDisable ≠ CmdFirewallEnable := by decide
  simp only [handleRequest, if_neg hc, handleCommand, e1, e2, f1, f2, f3, if_false, if_true,
    makeResponse, SetFirewallEnabled, and_self]

/-- Instance of `firewall_toggle`: the flag of the sample server, off, is on after
`firewall_enable`, and the protection state and subscribers are as before. -/
theorem firewall_toggle_witness :
    (handleRequest 1 sampleEnv sampleServer
        ⟨"1".toList, CmdFirewallEnable, 1⟩).1.daemon.firewallEnabled = true ∧
    (handleRequest 1 sampleEnv sampleServer
        ⟨"1".toList, CmdFirewallEnable, 1⟩).1.daemon.state = StateProtected ∧
    (handleRequest 1 sampleEnv sampleServer
        ⟨"1".toList, CmdFirewallEnable, 1⟩).1.subscribers = [] := by
  rw [(firewall_toggle 1 sampleEnv sampleServer "1".toList 1 (Or.inr rfl)).1]
  decide

/-- C14: `Ping` returns no error exactly when the connection is made, `PING\n` is
written, one line is read and that line, trimmed, is `PONG`; a failed dial, a failed
write, a failed read and every other reply line give a non-nil error. -/
theorem ping_iff (peer : Clamd) :
    (Ping peer = none ↔
      ∃ stream readErr line, peer = .sends stream readErr ∧
        ReadString stream readErr '\n' = (line, none) ∧ TrimSpace line = "PONG".toList) ∧
    (∀ err, Ping (.dialFails err) = some ("connect to clamd: ".toList ++ err)) ∧
    (∀ err, Ping (.writeFails err) = some ("send PING: ".toList ++ err)) ∧
    (∀ stream readErr, '\n' ∉ stream →
      Ping (.sends stream readErr) = some ("read response: ".toList ++ readErr)) ∧
    (∀ stream readErr line, ReadString stream readErr '\n' = (line, none) →
      TrimSpace line ≠ "PONG".toList →
      Ping (.sends stream readErr) = some ("unexpected response: ".toList ++ line)) ∧
    Ping (.sends "PONG\n".toList "EOF".toList) = none ∧
    Ping (.sends "WRONG\n".toList "EOF".toList) ≠ none := by
  refine ⟨?_, fun _ => rfl, fun _ => rfl, ?_, ?_, by decide, by decide⟩
  · cases peer with
    | dialFails err => simp [Ping]
    | writeFails err => simp [Ping]
    | sends stream readErr =>
      simp only [Ping]
      constructor
      · intro h
        refine ⟨stream, readErr, (ReadString stream readErr '\n').1, rfl, ?_⟩
        split at h
        · exact absurd h (by simp)
        · rename_i response hrd
          rw [hrd]
          refine ⟨rfl, ?_⟩
          by_contra hne
          have hne2 : TrimSpace response ≠ "PONG".toList := hne
          rw [if_pos hne2] at h
          exact absurd h (by simp)
      · rintro ⟨st, re, line, hpeer, hrd, htrim⟩
        cases hpeer
        simp [hrd, htrim]
  · intro stream readErr hnl
    simp [Ping, ReadString, hnl]
  · intro stream readErr line hrd hne
    simp only [Ping, hrd]
    rw [if_pos hne]

/-! ## Lemmas on the traversal -/

theorem wrapInt64_of_range (x : Int) (h1 : -2 ^ 63 ≤ x) (h2 : x < 2 ^ 63) :
    wrapInt64 x = x := by
  unfold wrapInt64
  rw [Int.emod_eq_of_lt (by omega) (by omega)]
  omega

/-- The callback on a file whose scan returns `r`. -/
theorem visit_file (acc : ScanAcc) (path : Str) (size : Int) (peer : Clamd) (now : Time)
    (r : ScanResult) (h : ScanFile peer now path = some r) :
    visit acc (.file path size peer now) =
      some (if r.Error ≠ none then { acc with scanCalls := acc.scanCalls ++ [path] }
        else if !r.Clean then
          { filesScanned := wrapInt64 (acc.filesScanned + 1),
            threatsFound := wrapInt64 (acc.threatsFound + 1),
            events := acc.events ++
              [((StartThreat path r.Threat).Action "detected".toList).FileSize size],
            scanCalls := acc.scanCalls ++ [path] }
        else { acc with filesScanned := wrapInt64 (acc.filesScanned + 1),
                        scanCalls := acc.scanCalls ++ [path] }) := by
  simp only [visit, h]
  by_cases he : r.Error ≠ none
  · simp [he]
  · by_cases hcl : r.Clean = true <;> simp [he, hcl]

/-- The counters and the calls of `ScanFile` after a traversal in which every scan
returns, while the counters stay in the range of `int`. -/
theorem scanDirectory_counts_aux (nodes : List Node) (acc : ScanAcc) (rs : List ScanResult)
    (hrs : scanResults nodes = rs.map some)
    (hf : 0 ≤ acc.filesScanned) (ht : 0 ≤ acc.threatsFound)
    (hlf : acc.filesScanned + rs.length < 2 ^ 63)
    (hlt : acc.threatsFound + rs.length < 2 ^ 63) :
    ∃ acc2, scanDirectory nodes acc = some acc2 ∧
      acc2.scanCalls = acc.scanCalls ++ filePaths nodes ∧
      acc2.filesScanned = acc.filesScanned + (rs.countP ScanResult.ok : Nat) ∧
      acc2.threatsFound = acc.threatsFound + (rs.countP ScanResult.threat : Nat) := by
  induction nodes generalizing acc rs with
  | nil =>
    cases rs with
    | nil => exact ⟨acc, rfl, by simp [filePaths], by simp, by simp⟩
    | cons r rs2 => simp [scanResults] at hrs
  | cons n rest ih =>
    cases n with
    | inaccessible p =>
      obtain ⟨a2, h1, h2, h3, h4⟩ := ih acc rs hrs hf ht hlf hlt
      refine ⟨a2, ?_, h2, h3, h4⟩
      simpa [scanDirectory, List.foldlM_cons, visit] using h1
    | dir p =>
      obtain ⟨a2, h1, h2, h3, h4⟩ := ih acc rs hrs hf ht hlf hlt
      refine ⟨a2, ?_, h2, h3, h4⟩
      simpa [scanDirectory, List.foldlM_cons, visit] using h1
    | file path size peer now =>
      cases rs with
      | nil => simp [scanResults] at hrs
      | cons r rs2 =>
        simp only [scanResults, List.map_cons, List.cons.injEq] at hrs
        obtain ⟨hr, hrest⟩ := hrs
        have hv := visit_file acc path size peer now r hr
        simp only [List.length_cons, Nat.cast_add, Nat.cast_one] at hlf hlt
        have hw1 : wrapInt64 (acc.filesScanned + 1) = acc.filesScanned + 1 :=
          wrapInt64_of_range _ (by omega) (by omega)
        have hw2 : wrapInt64 (acc.threatsFound + 1) = acc.threatsFound + 1 :=
          wrapInt64_of_range _ (by omega) (by omega)
        rw [hw1, hw2] at hv
        by_cases he : r.Error ≠ none
        · rw [if_pos he] at hv
          obtain ⟨a2, h1, h2, h3, h4⟩ := ih { acc with scanCalls := acc.scanCalls ++ [path] }
            rs2 hrest hf ht (by simp only; omega) (by simp only; omega)
          have hok : r.ok = false := by
            cases hE : r.Error with
            | none => exact absurd hE he
            | some e => simp [ScanResult.ok, hE]
          have hth : r.threat = false := by
            unfold ScanResult.threat
            unfold ScanResult.ok at hok
            rw [hok]; rfl
          refine ⟨a2, ?_, ?_, ?_, ?_⟩
          · simp only [scanDirectory, List.foldlM_cons, hv]
            exact h1
          · rw [h2]; simp [filePaths]
          · rw [h3]; simp [List.countP_cons, hok]
          · rw [h4]; simp [List.countP_cons, hth]
        · rw [if_neg he] at hv
          have hE : r.Error = none := by simpa using he
          have hok : r.ok = true := by simp [ScanResult.ok, hE]
          by_cases hcl : r.Clean = true
          · simp only [hcl, Bool.not_true, Bool.false_eq_true, if_false] at hv
            have hth : r.threat = false := by simp [ScanResult.threat, hcl]
            obtain ⟨a2, h1, h2, h3, h4⟩ := ih
              { acc with filesScanned := acc.filesScanned + 1,
                         scanCalls := acc.scanCalls ++ [path] }
              rs2 hrest (by simp only; omega) ht (by simp only; omega) (by simp only; omega)
            refine ⟨a2, ?_, ?_, ?_, ?_⟩
            · simp only [scanDirectory, List.foldlM_cons, hv]
              exact h1
            · rw [h2]; simp [filePaths]
            · rw [h3]; simp [List.countP_cons, hok]; omega
            · rw [h4]; simp [List.countP_cons, hth]
          · have hcl2 : r.Clean = false := by simpa using hcl
            simp only [hcl2, Bool.not_false, if_true] at hv
            have hth : r.threat = true := by simp [ScanResult.threat, hE, hcl2]
            obtain ⟨a2, h1, h2, h3, h4⟩ := ih
              { filesScanned := acc.filesScanned + 1,
                threatsFound := acc.threatsFound + 1,
                events := acc.events ++
                  [((StartThreat path r.Threat).Action "detected".toList).FileSize size],
                scanCalls := acc.scanCalls ++ [path] }
              rs2 hrest (by simp only; omega) (by simp only; omega) (by simp only; omega)
              (by simp only; omega)
            refine ⟨a2, ?_, ?_, ?_, ?_⟩
            · simp only [scanDirectory, List.foldlM_cons, hv]
              exact h1
            · rw [h2]; simp [filePaths]
            · rw [h3]; simp [List.countP_cons, hok]; omega
            · rw [h4]; simp [List.countP_cons, hth]; omega

theorem filePaths_length (nodes : List Node) :
    (filePaths nodes).length = (scanResults nodes).length := by
  induction nodes with
  | nil => rfl
  | cons n rest ih => cases n <;> simp [filePaths, scanResults, ih]

/-- A result that is a threat has no error. -/
theorem countP_threat_le (rs : List ScanResult) :
    rs.countP ScanResult.threat ≤ rs.countP ScanResult.ok := by
  apply List.countP_mono_left
  intro r _ h
  simp only [ScanResult.threat, Bool.and_eq_true] at h
  exact h.1

/-! ## Traversal of a directory -/

/-- C15: for every sequence of nodes that `scanDirectory` visits and the results `rs`
that the scans of its files return, while the counters stay in the range of `int`:
the traversal returns with every file handed to `ScanFile` (no result aborts it), files
scanned grows by the number of results with no error, and threats found by the number
of results with no error and `Clean = false`; a result with an error adds to neither,
and threats found grows by no more than files scanned. -/
theorem scanDirectory_counts (nodes : List Node) (acc : ScanAcc) (rs : List ScanResult)
    (hrs : scanResults nodes = rs.map some)
    (hf : 0 ≤ acc.filesScanned) (ht : 0 ≤ acc.threatsFound)
    (hlf : acc.filesScanned + rs.length < 2 ^ 63)
    (hlt : acc.threatsFound + rs.length < 2 ^ 63) :
    ∃ acc2, scanDirectory nodes acc = some acc2 ∧
      acc2.scanCalls = acc.scanCalls ++ filePaths nodes ∧
      (filePaths nodes).length = rs.length ∧
      acc2.filesScanned = acc.filesScanned + (rs.countP (fun r => r.Error.isNone) : Nat) ∧
      acc2.threatsFound
        = acc.threatsFound + (rs.countP (fun r => r.Error.isNone && !r.Clean) : Nat) ∧
      rs.countP (fun r => r.Error.isNone && !r.Clean) ≤ rs.countP (fun r => r.Error.isNone) ∧
      (acc.threatsFound ≤ acc.filesScanned → acc2.threatsFound ≤ acc2.filesScanned) := by
  obtain ⟨acc2, h1, h2, h3, h4⟩ := scanDirectory_counts_aux nodes acc rs hrs hf ht hlf hlt
  have hle := countP_threat_le rs
  refine ⟨acc2, h1, h2, ?_, h3, h4, hle, ?_⟩
  · rw [filePaths_length, hrs, List.length_map]
  · intro h0
    rw [h3, h4]
    have : ((rs.countP ScanResult.threat : Nat) : Int) ≤ (rs.countP ScanResult.ok : Nat) := by
      exact_mod_cast hle
    omega

/-- Instance of `scanDirectory_counts`: of four files one is clean, one infected, one
fails with an error and one is answered with an empty line; three are counted as
scanned and two as threats. -/
theorem scanDirectory_counts_witness :
    scanResults sampleNodes = sampleResults.map some ∧
    ∃ acc2, scanDirectory sampleNodes
        { filesScanned := 0, threatsFound := 0, events := [], scanCalls := [] } = some acc2 ∧
      acc2.scanCalls = ["/srv/a".toList, "/srv/b".toList, "/srv/c".toList, "/srv/d".toList] ∧
      acc2.filesScanned = 3 ∧ acc2.threatsFound = 2 := by
  have hrs : scanResults sampleNodes = sampleResults.map some := by decide
  obtain ⟨acc2, h1, h2, _, h3, h4, _, _⟩ := scanDirectory_counts sampleNodes
    { filesScanned := 0, threatsFound := 0, events := [], scanCalls := [] } sampleResults
    hrs (by decide) (by decide) (by decide) (by decide)
  refine ⟨hrs, acc2, h1, ?_, ?_, ?_⟩
  · rw [h2]; decide
  · rw [h3]; decide
  · rw [h4]; decide

/-! ## Unclassified replies -/

theorem trimSpace_newline (l : Str) : TrimSpace (l ++ ['\n']) = TrimSpace l := by
  unfold TrimSpace
  induction l with
  | nil => decide
  | cons x xs ih =>
    by_cases hx : isSpace x = true
    · simpa [List.dropWhile, hx] using ih
    · have hx2 : isSpace x = false := by simpa using hx
      have e1 : (x :: xs ++ ['\n']).dropWhile isSpace = x :: xs ++ ['\n'] := by
        simp [List.dropWhile, hx2]
      have e2 : (x :: xs).dropWhile isSpace = x :: xs := by
        simp [List.dropWhile, hx2]
      rw [e1, e2]
      have e3 : (x :: xs ++ ['\n']).reverse = '\n' :: (x :: xs).reverse := by simp
      rw [e3]
      simp [List.dropWhile, show isSpace '\n' = true by decide]

theorem trimSpace_isInfix (s : Str) : TrimSpace s <:+: s := by
  unfold TrimSpace
  have h1 : ((s.dropWhile isSpace).reverse.dropWhile isSpace).reverse
      <+: s.dropWhile isSpace := by
    rw [← List.reverse_suffix, List.reverse_reverse]
    exact List.dropWhile_suffix _
  exact h1.isInfix.trans (List.dropWhile_suffix _).isInfix

/-- The result of `ScanFile` for a reply line that matches none of the three shapes. -/
theorem scanFile_other_line (line readErr path : Str) (now : Time)
    (hl : '\n' ∉ line) (hok : ¬ " OK".toList <:+ TrimSpace line)
    (hfound : ¬ " FOUND".toList <:+ TrimSpace line) (herr : ¬ "ERROR".toList <:+: line) :
    ScanFile (.sends (line ++ ['\n']) readErr) now path
      = some { Path := path, Clean := false, Threat := [], Error := none,
               ScannedAt := now } := by
  have hr := readString_line line [] readErr hl
  unfold ScanFile
  simp only [hr]
  unfold classify
  have h1 : HasSuffix (TrimSpace line) " OK".toList = false := by
    rw [Bool.eq_false_iff, ne_eq, hasSuffix_iff]; exact hok
  have h2 : HasSuffix (TrimSpace line) " FOUND".toList = false := by
    rw [Bool.eq_false_iff, ne_eq, hasSuffix_iff]; exact hfound
  have h3 : Contains (TrimSpace line) "ERROR".toList = false := by
    rw [Bool.eq_false_iff, ne_eq, contains_iff]
    exact fun h => herr (h.trans (trimSpace_isInfix line))
  simp only [trimSpace_newline, h1, h2, h3]
  simp

theorem scanResults_of_scans (nodes : List Node) (h : ∀ n ∈ nodes, n.scans = true) :
    ∃ rs : List ScanResult, scanResults nodes = rs.map some ∧ rs.length ≤ nodes.length := by
  induction nodes with
  | nil => exact ⟨[], rfl, Nat.le_refl _⟩
  | cons n rest ih =>
    obtain ⟨rs, h1, h2⟩ := ih (fun m hm => h m (List.mem_cons_of_mem _ hm))
    have hn := h n (List.mem_cons_self _ _)
    cases n with
    | inaccessible p => exact ⟨rs, by simpa [scanResults] using h1, by simp; omega⟩
    | dir p => exact ⟨rs, by simpa [scanResults] using h1, by simp; omega⟩
    | file path size peer now =>
      simp only [Node.scans, Option.isSome_iff_exists] at hn
      obtain ⟨r, hr⟩ := hn
      exact ⟨r :: rs, by simp [scanResults, hr, h1], by simp; omega⟩

theorem mem_scanResults (nodes : List Node) (path : Str) (size : Int) (peer : Clamd)
    (now : Time) (h : Node.file path size peer now ∈ nodes) :
    ScanFile peer now path ∈ scanResults nodes := by
  induction nodes with
  | nil => simp at h
  | cons n rest ih =>
    rw [List.mem_cons] at h
    rcases h with h | h
    · subst h; simp [scanResults]
    · cases n <;> simp [scanResults, ih h]

/-- A scan run traverses the nodes under its base paths as one sequence. -/
theorem foldlM_visited (walk : Str → List Node) (paths : List Str) (acc : ScanAcc) :
    paths.foldlM (fun acc basePath => scanDirectory (walk basePath) acc) acc
      = scanDirectory (visited walk paths) acc := by
  induction paths generalizing acc with
  | nil => rfl
  | cons p rest ih =>
    simp only [List.foldlM_cons, visited, scanDirectory, List.foldlM_append]
    cases hv : List.foldlM visit acc (walk p) with
    | none => rfl
    | some a =>
      simp only [Option.bind_eq_bind, Option.some_bind]
      exact ih a

/-- A traversal that returns has met no scan that panics. -/
theorem scans_of_scanDirectory (nodes : List Node) (acc acc2 : ScanAcc)
    (h : scanDirectory nodes acc = some acc2) : ∀ n ∈ nodes, n.scans = true := by
  induction nodes generalizing acc with
  | nil => intro n hn; simp at hn
  | cons m rest ih =>
    simp only [scanDirectory, List.foldlM_cons] at h
    cases hv : visit acc m with
    | none => rw [hv] at h; simp at h
    | some a1 =>
      rw [hv] at h
      simp only [Option.bind_eq_bind, Option.some_bind] at h
      intro n hn
      rw [List.mem_cons] at hn
      rcases hn with hn | hn
      · subst hn
        cases n with
        | inaccessible p => rfl
        | dir p => rfl
        | file path size peer now =>
          simp only [Node.scans]
          cases hs : ScanFile peer now path with
          | none => simp [visit, hs] at hv
          | some r => rfl
      · exact ih a1 h n hn

/-- A scan run with the engine available, in which no scan panics, some scan returns
a threat and fewer than 2^63 nodes are visited, returns in the state `Alert`. -/
theorem runScan_alert_aux (env : ScanEnv) (s : Server) (scanType : Str) (r0 : ScanResult)
    (hav : IsAvailable env.socketExists env.probe = true)
    (hmem : some r0 ∈ scanResults (visited env.walk (scanPaths s scanType)))
    (hthreat : r0.threat = true)
    (hsafe : ∀ n ∈ visited env.walk (scanPaths s scanType), n.scans = true)
    (hlen : ((visited env.walk (scanPaths s scanType)).length : Int) < 2 ^ 63) :
    ∃ r, runScan env s scanType = some r ∧ r.server.daemon.state = StateAlert ∧
      0 < r.threatsFound := by
  obtain ⟨rs, hrs, hrl⟩ := scanResults_of_scans _ hsafe
  rw [hrs, List.mem_map] at hmem
  obtain ⟨r, hr, hre⟩ := hmem
  have hr0 : r = r0 := Option.some.inj hre
  subst hr0
  have hpos : 0 < rs.countP ScanResult.threat := List.countP_pos_iff.2 ⟨r, hr, hthreat⟩
  have hb : ((rs.length : Nat) : Int) < 2 ^ 63 := by
    have : ((rs.length : Nat) : Int) ≤ (visited env.walk (scanPaths s scanType)).length := by
      exact_mod_cast hrl
    omega
  obtain ⟨acc2, h1, _, _, h4⟩ := scanDirectory_counts_aux _
    { filesScanned := 0, threatsFound := 0, events := [], scanCalls := [] } rs hrs
    (le_refl _) (le_refl _) (by simpa using hb) (by simpa using hb)
  have hfold := foldlM_visited env.walk (scanPaths s scanType)
    { filesScanned := 0, threatsFound := 0, events := [], scanCalls := [] }
  rw [h1] at hfold
  have hgt : acc2.threatsFound > 0 := by
    rw [h4]
    have : (0 : Int) < (rs.countP ScanResult.threat : Nat) := by exact_mod_cast hpos
    simpa using this
  simp only [runScan, hav, Bool.not_true, Bool.false_eq_true, if_false, hfold, hgt, if_true]
  exact ⟨_, rfl, by simp [setState_daemon], hgt⟩

/-- A scan run that returns with the engine available has met no scan that panics. -/
theorem runScan_some_scans (env : ScanEnv) (s : Server) (scanType : Str) (r : RunResult)
    (hav : IsAvailable env.socketExists env.probe = true)
    (h : runScan env s scanType = some r) :
    ∀ n ∈ visited env.walk (scanPaths s scanType), n.scans = true := by
  simp only [runScan, hav, Bool.not_true, Bool.false_eq_true, if_false, foldlM_visited] at h
  cases hf : scanDirectory (visited env.walk (scanPaths s scanType))
      { filesScanned := 0, threatsFound := 0, events := [], scanCalls := [] } with
  | none => rw [hf] at h; simp at h
  | some acc => exact scans_of_scanDirectory _ _ acc hf

/-- C16, as stated, fails: the reply line `/f: OK` followed by a carriage return ends
with neither `" OK"` nor `" FOUND"` and holds no `ERROR`, and it is classified clean,
because the line is trimmed before it is classified. -/
theorem crlf_reply_is_clean :
    ¬ " OK".toList <:+ "/f: OK\r".toList ∧
    ¬ " FOUND".toList <:+ "/f: OK\r".toList ∧
    ¬ "ERROR".toList <:+: "/f: OK\r".toList ∧
    ScanFile (.sends ("/f: OK\r".toList ++ ['\n']) "EOF".toList) ⟨2024, 1, 2, 0, 0, 4, 0⟩
        "/f".toList
      = some { Path := "/f".toList, Clean := true, Threat := [], Error := none,
               ScannedAt := ⟨2024, 1, 2, 0, 0, 4, 0⟩ } := by
  decide

/-- C16 (amended): for every reply line that, once trimmed, ends with neither `" OK"`
nor `" FOUND"` and that does not hold `ERROR` (the empty line, say), `ScanFile` returns
`Clean = false`, an empty `Threat` and no error; the callback of `scanDirectory`
counts the file as scanned and as a threat and emits a threat event whose threat name
is empty; and a scan run that visits such a file (among fewer than 2^63 nodes) ends in
the state `Alert` whenever it returns, which it does when no scan panics. -/
theorem unclassified_reply_is_threat (line readErr path : Str) (now : Time) (size : Int)
    (hl : '\n' ∉ line) (hok : ¬ " OK".toList <:+ TrimSpace line)
    (hfound : ¬ " FOUND".toList <:+ TrimSpace line) (herr : ¬ "ERROR".toList <:+: line) :
    ScanFile (.sends (line ++ ['\n']) readErr) now path
      = some { Path := path, Clean := false, Threat := [], Error := none,
               ScannedAt := now } ∧
    (∀ acc : ScanAcc, visit acc (.file path size (.sends (line ++ ['\n']) readErr) now)
      = some { filesScanned := wrapInt64 (acc.filesScanned + 1),
               threatsFound := wrapInt64 (acc.threatsFound + 1),
               events := acc.events ++
                 [((StartThreat path []).Action "detected".toList).FileSize size],
               scanCalls := acc.scanCalls ++ [path] }) ∧
    (((StartThreat path []).Action "detected".toList).FileSize size).field FieldThreatName
      = some (.str []) ∧
    (∀ (env : ScanEnv) (s : Server) (scanType : Str),
      IsAvailable env.socketExists env.probe = true →
      Node.file path size (.sends (line ++ ['\n']) readErr) now
        ∈ visited env.walk (scanPaths s scanType) →
      ((visited env.walk (scanPaths s scanType)).length : Int) < 2 ^ 63 →
      (∀ r, runScan env s scanType = some r →
        r.server.daemon.state = StateAlert ∧ 0 < r.threatsFound) ∧
      ((∀ n ∈ visited env.walk (scanPaths s scanType), n.scans = true) →
        ∃ r, runScan env s scanType = some r)) := by
  have hscan := scanFile_other_line line readErr path now hl hok hfound herr
  refine ⟨hscan, fun acc => ?_, ?_, ?_⟩
  · rw [visit_file acc path size _ now _ hscan]
    simp
  · simp [Builder.field, Builder.FileSize, Builder.Action, StartThreat, Builder.Set, Start,
      FieldThreatName, FieldPath, FieldAction, FieldFileSizeBytes, List.find?, List.filter]
  · intro env s scanType hav hmem hlen
    have hin := mem_scanResults _ path size _ now hmem
    rw [hscan] at hin
    refine ⟨fun r hr => ?_, fun hsafe => ?_⟩
    · obtain ⟨r2, h1, h2, h3⟩ := runScan_alert_aux env s scanType _ hav hin rfl
        (runScan_some_scans env s scanType r hav hr) hlen
      rw [hr] at h1
      cases h1
      exact ⟨h2, h3⟩
    · obtain ⟨r2, h1, _, _⟩ := runScan_alert_aux env s scanType _ hav hin rfl hsafe hlen
      exact ⟨r2, h1⟩

/-- Instance of `unclassified_reply_is_threat`: a quick scan whose only file is
answered with an empty line ends in `Alert`, with one file scanned and one threat. -/
theorem unclassified_reply_is_threat_witness :
    ScanFile (.sends ([] ++ ['\n']) "EOF".toList) ⟨2024, 1, 2, 0, 0, 4, 0⟩ "/home/u/d".toList
      = some { Path := "/home/u/d".toList, Clean := false, Threat := [], Error := none,
               ScannedAt := ⟨2024, 1, 2, 0, 0, 4, 0⟩ } ∧
    (runScan sampleBlankEnv sampleServer "quick".toList).map
        (fun r => (r.server.daemon.state, r.filesScanned, r.threatsFound,
          r.events.map (fun b => (b.EventType, b.field FieldThreatName))))
      = some (StateAlert, 1, 1,
          [("threat_detected".toList, some (.str [])), ("scan".toList, none)]) :=
  ⟨(unclassified_reply_is_threat [] "EOF".toList "/home/u/d".toList ⟨2024, 1, 2, 0, 0, 4, 0⟩ 7
      (by decide) (by decide) (by decide) (by decide)).1, by rfl⟩

/-! ## Terminal state of a scan run -/

theorem mem_visited (walk : Str → List Node) (paths : List Str) (basePath : Str) (n : Node)
    (hp : basePath ∈ paths) (hn : n ∈ walk basePath) : n ∈ visited walk paths := by
  induction paths with
  | nil => simp at hp
  | cons p rest ih =>
    rw [List.mem_cons] at hp
    simp only [visited, List.mem_append]
    rcases hp with h | h
    · subst h; exact Or.inl hn
    · exact Or.inr (ih h)

/-- The terminal state of a scan run in terms of the scans of the files it visits
(fewer than 2^63 nodes, engine available).  A run that returns has handed every file
under its base paths to `ScanFile`; its counters are the numbers of results with no
error and of results with no error and `Clean = false`; it ends in `Alert` when some
result is such a threat and in `Protected` when none is, with the last-scan time set.
The run returns whenever no scan panics. -/
theorem runScan_state_of_scans (env : ScanEnv) (s : Server) (scanType : Str)
    (hav : IsAvailable env.socketExists env.probe = true)
    (hlen : ((visited env.walk (scanPaths s scanType)).length : Int) < 2 ^ 63) :
    (∀ r, runScan env s scanType = some r →
      ∃ rs : List ScanResult,
        scanResults (visited env.walk (scanPaths s scanType)) = rs.map some ∧
        r.scanCalls = filePaths (visited env.walk (scanPaths s scanType)) ∧
        r.filesScanned = (rs.countP ScanResult.ok : Nat) ∧
        r.threatsFound = (rs.countP ScanResult.threat : Nat) ∧
        r.server.daemon = { s.daemon with
          lastScan := env.finish,
          state := if 0 < rs.countP ScanResult.threat then StateAlert else StateProtected }) ∧
    ((∀ n ∈ visited env.walk (scanPaths s scanType), n.scans = true) →
      ∃ r, runScan env s scanType = some r) := by
  refine ⟨fun r hr => ?_, fun hsafe => ?_⟩
  · have hsafe := runScan_some_scans env s scanType r hav hr
    obtain ⟨rs, hrs, hrl⟩ := scanResults_of_scans _ hsafe
    have hb : ((rs.length : Nat) : Int) < 2 ^ 63 := by
      have : ((rs.length : Nat) : Int) ≤ (visited env.walk (scanPaths s scanType)).length := by
        exact_mod_cast hrl
      omega
    obtain ⟨acc2, h1, h2, h3, h4⟩ := scanDirectory_counts_aux _
      { filesScanned := 0, threatsFound := 0, events := [], scanCalls := [] } rs hrs
      (le_refl _) (le_refl _) (by simpa using hb) (by simpa using hb)
    have hfold := foldlM_visited env.walk (scanPaths s scanType)
      { filesScanned := 0, threatsFound := 0, events := [], scanCalls := [] }
    rw [h1] at hfold
    simp only [runScan, hav, Bool.not_true, Bool.false_eq_true, if_false, hfold,
      Option.some.injEq] at hr
    subst hr
    refine ⟨rs, hrs, by simpa using h2, by simpa using h3, by simpa using h4, ?_⟩
    have h4b : acc2.threatsFound = (rs.countP ScanResult.threat : Nat) := by simpa using h4
    by_cases hp : 0 < rs.countP ScanResult.threat
    · have hgt : acc2.threatsFound > 0 := by rw [h4b]; exact_mod_cast hp
      simp [hgt, hp, setState_daemon, SetLastScan]
    · have hgt : ¬ acc2.threatsFound > 0 := by
        rw [h4b]; intro h; exact hp (by exact_mod_cast h)
      simp [hgt, hp, setState_daemon, SetLastScan]
  · obtain ⟨acc, hacc⟩ := scanPaths_some env.walk (scanPaths s scanType)
      { filesScanned := 0, threatsFound := 0, events := [], scanCalls := [] }
      (fun bp hbp n hn => hsafe n (mem_visited env.walk _ bp n hbp hn))
    simp only [runScan, hav, Bool.not_true, Bool.false_eq_true, if_false, hacc]
    exact ⟨_, rfl⟩

/-- C5: a scan run that meets the reply `/home/u/x: FOUND` has no terminal state.  The
engine is available and the only file under the quick-scan path is answered with that
line: `ScanFile` panics (slice bounds `[11:10]`) inside the traversal, so `runScan`
neither returns nor makes its final transition, where the claim has the run end in
`Alert` or `Protected`.  With the reply `/home/u/x: OK` the same run ends in
`Protected`. -/
theorem runScan_panics_without_terminal_state :
    IsAvailable samplePanicEnv.socketExists samplePanicEnv.probe = true ∧
    scanPaths sampleServer "quick".toList = ["/home/u".toList] ∧
    ScanFile (.sends "/home/u/x: FOUND\n".toList "EOF".toList) ⟨2024, 1, 2, 0, 0, 1, 0⟩
      "/home/u/x".toList = none ∧
    runScan samplePanicEnv sampleServer "quick".toList = none ∧
    (runScan sampleCleanEnv sampleServer "quick".toList).map
        (fun r => (r.server.daemon.state, r.filesScanned, r.threatsFound))
      = some (StateProtected, 1, 0) := by
  decide

end Defense
